import Mathlib

/-!
Shallow embedding of `src/src/Optimizer.cpp` (raxml-ng-rates).

The optimizer drives staged search schedules (`optimize_topology`,
`optimize_topology_adaptive`, `evaluate`) over an abstract `TreeInfo`
collaborator.  Likelihood values and epsilons are modelled as rationals,
machine integers as `ℤ`/`ℕ`, C integer division (truncation toward zero)
as `Int.tdiv`, and the C cast `(int)` of a non-negative double as `ctrunc`.
The unbounded `while`/`do-while` loops of the source are modelled with an
explicit fuel parameter: a result of `none` means the loop was still
running when the fuel ran out, so "the run terminates" is "some fuel
yields `some`".

Every collaborator call and every checkpoint write is recorded in an
event trace; events emitted inside a checkpoint-gated stage are tagged
with that stage's `CheckpointStep`, events emitted outside any stage are
tagged `none`.  Traces are produced even when the fuel runs out (they
record what happened up to that point).

The schedule drivers operate on the coordinator's view of the search
state (the single writer of the authoritative `SearchState`); the
parallel broadcast/barrier layer is outside the given sources and carries
no data flow that the claims depend on.
-/

namespace Raxml

/-- Modelled from the spec: the totally ordered stage markers of the
checkpoint state machine (the `CheckpointStep` enum itself lives in a
header outside the given sources).  The order is the spec's list, which
matches the order of use in `Optimizer.cpp`. -/
inductive CheckpointStep where
  | brlenOpt
  | modOpt1
  | radiusDetectOrNNI
  | modOpt2
  | fastSPR
  | modOpt3
  | slowSPR
  | modOpt4
  | finish
deriving DecidableEq

/-- Ordinal of a stage marker; `step >= resume_step` in the source is
`resume.ord ≤ step.ord` here. -/
def CheckpointStep.ord : CheckpointStep → ℕ
  | .brlenOpt => 0
  | .modOpt1 => 1
  | .radiusDetectOrNNI => 2
  | .modOpt2 => 3
  | .fastSPR => 4
  | .modOpt3 => 5
  | .slowSPR => 6
  | .modOpt4 => 7
  | .finish => 8

/-- SPR-round search parameters, with the fields read and written by
`Optimizer.cpp` (`thorough` is the 0/1 int of the source as a `Bool`).
`cutoff_ref` models the resettable cutoff-tracking info keyed to a
reference log-likelihood; see `spr_round_params.reset_cutoff_info`. -/
structure spr_round_params where
  thorough : Bool
  radius_min : ℤ
  radius_max : ℤ
  ntopol_keep : ℕ
  subtree_cutoff : ℚ
  lh_epsilon_brlen_full : ℚ
  lh_epsilon_brlen_triplet : ℚ
  cutoff_ref : ℚ
deriving DecidableEq

/-- Modelled from the spec: `reset_cutoff_info(loglh)` re-keys the
cutoff-tracking info of the SPR parameters to the given reference
log-likelihood (its implementation lives outside the given sources). -/
def spr_round_params.reset_cutoff_info (p : spr_round_params) (lh : ℚ) : spr_round_params :=
  {p with cutoff_ref := lh}

/-- NNI-round parameters (`nni_round_params` of the source). -/
structure nni_round_params where
  tolerance : ℚ
  lh_epsilon : ℚ
deriving DecidableEq

/-- The resumable search snapshot (`SearchState` of the source): objective
value, iteration counter, resume cursor, SPR/NNI parameters and the best
fast SPR radius. -/
structure SearchState where
  loglh : ℚ
  iteration : ℤ
  step : CheckpointStep
  spr_params : spr_round_params
  nni_params : nni_round_params
  fast_spr_radius : ℤ
deriving DecidableEq

/-- The `Optimizer`'s construction-time options (`_lh_epsilon`,
`_lh_epsilon_brlen_triplet`, `_spr_radius`, `_spr_cutoff`, `_nni_epsilon`,
`_nni_tolerance` of the source, without the underscore prefix). -/
structure Optimizer where
  lh_epsilon : ℚ
  lh_epsilon_brlen_triplet : ℚ
  spr_radius : ℤ
  spr_cutoff : ℚ
  nni_epsilon : ℚ
  nni_tolerance : ℚ
deriving DecidableEq

/-- The abstract `TreeInfo` collaborator: a tree state of type `σ` with
the operations `Optimizer.cpp` invokes on it.  `loglh` is the pure
objective query; the mutating operations return the new tree state, and
`optimize_branches` / `spr_round` / `nni_round` additionally return the
new objective value as the source's return value does.  `tip_count` is
`pll_treeinfo().tip_count`. -/
structure TreeInfo (σ : Type) where
  loglh : σ → ℚ
  optimize_params_all : ℚ → σ → σ
  optimize_branches : ℚ → ℕ → σ → σ × ℚ
  spr_round : spr_round_params → σ → σ × ℚ
  nni_round : nni_round_params → σ → σ × ℚ
  tip_count : ℕ

/-- One observable action of a schedule run: a checkpoint write
(`persist` = `cm.update_and_write`), a `TreeInfo` call, a write to a
search-state field other than `loglh` and `step` (`paramWrite`), or the
forced extra fast-SPR round of the adaptive schedule (`forcedContinue`,
marking that the special continuation branch fired). -/
inductive Event where
  | persist
  | queryLoglh
  | optBranches (eps : ℚ) (passes : ℕ)
  | optParams (eps : ℚ)
  | sprRound (thorough : Bool) (radius_min radius_max : ℤ)
  | nniRound (tolerance lh_epsilon : ℚ)
  | paramWrite
  | forcedContinue
deriving DecidableEq

/-- Events tagged with the stage they were emitted in (`none`: outside
any checkpoint-gated stage). -/
abbrev TEvent := Option CheckpointStep × Event

/-- Is the event a mutating `TreeInfo` operation? -/
def Event.isMutatingTI : Event → Bool
  | .optBranches _ _ => true
  | .optParams _ => true
  | .sprRound _ _ _ => true
  | .nniRound _ _ => true
  | _ => false

/-- Is the event an SPR round? -/
def Event.isSpr : Event → Bool
  | .sprRound _ _ _ => true
  | _ => false

/-- Is the event an NNI round? -/
def Event.isNni : Event → Bool
  | .nniRound _ _ => true
  | _ => false

/-- Is the event a model-parameter optimization (`optimize_params_all`)? -/
def Event.isOptParams : Event → Bool
  | .optParams _ => true
  | _ => false

/-- The C cast `(int)` applied to a double: truncation toward zero. -/
def ctrunc (q : ℚ) : ℤ :=
  if 0 ≤ q then ⌊q⌋ else ⌈q⌉

/-- `Optimizer::spr_radius_limit_adaptive` (Optimizer.cpp 518-524):
triangular function of the difficulty, `(int)(30*difficulty + 5)` for
`difficulty ≤ 0.5` and `(int)(-30*difficulty + 35)` otherwise. -/
def spr_radius_limit_adaptive (difficulty : ℚ) : ℤ :=
  if difficulty ≤ 1/2 then ctrunc (30 * difficulty + 5)
  else ctrunc (-30 * difficulty + 35)

/-- `Optimizer::spr_radius_step_adaptive` (Optimizer.cpp 526-554):
bucketed radius step; `/` of the source is C integer division. -/
def spr_radius_step_adaptive (spr_radius_max : ℤ) (slow_spr : Bool) : ℤ :=
  if slow_spr then
    if spr_radius_max ≤ 7 then spr_radius_max
    else if spr_radius_max ≤ 13 then spr_radius_max.tdiv 2 + 1
    else spr_radius_max.tdiv 3 + 1
  else
    if spr_radius_max ≤ 5 then spr_radius_max
    else if spr_radius_max ≤ 10 then spr_radius_max.tdiv 2 + 1
    else if spr_radius_max ≤ 15 then spr_radius_max.tdiv 3 + 1
    else spr_radius_max.tdiv 4 + 1

/-- The `do { ... } while (new_loglh - cur_loglh > lh_epsilon)` loop of
`Optimizer::optimize_model` (Optimizer.cpp 27-40), with fuel.  `cur` is
the objective value queried before this iteration. -/
def optModelGo {σ : Type} (ti : TreeInfo σ) (eps : ℚ) :
    ℕ → σ → ℚ → Option (σ × ℚ) × List Event
  | 0, _, _ => (none, [])
  | f + 1, s, cur =>
    let s1 := ti.optimize_params_all eps s
    let new1 := ti.loglh s1
    if new1 - cur > eps then
      let r := optModelGo ti eps f s1 new1
      (r.1, Event.optParams eps :: Event.queryLoglh :: r.2)
    else
      (some (s1, new1), [Event.optParams eps, Event.queryLoglh])

/-- `Optimizer::optimize_model` (Optimizer.cpp 18-43): query the
objective, then repeat full model-parameter optimization followed by an
objective re-query until the improvement over the previous query is at
most `eps`; return the new tree state and the objective value of the
last query. -/
def optimize_model {σ : Type} (ti : TreeInfo σ) (eps : ℚ) (fuel : ℕ) (s : σ) :
    Option (σ × ℚ) × List Event :=
  let r := optModelGo ti eps fuel s (ti.loglh s)
  (r.1, Event.queryLoglh :: r.2)

/-- `Optimizer::nni` (Optimizer.cpp 45-50): one NNI round, returning the
new tree state and objective, plus its trace. -/
def nni {σ : Type} (ti : TreeInfo σ) (npar : nni_round_params) (s : σ) :
    (σ × ℚ) × List Event :=
  (ti.nni_round npar s, [Event.nniRound npar.tolerance npar.lh_epsilon])

/-- The radius-autodetection `while` loop of `Optimizer::optimize_topology`
(Optimizer.cpp 130-149): while the window minimum is below the limit,
persist, run a non-thorough SPR round, and either slide the window by
the step on an improvement above 0.1 or break.  `best` is the local
`best_loglh`. -/
def autodetect_loop {σ : Type} (ti : TreeInfo σ) (radius_limit radius_step : ℤ) :
    ℕ → σ → SearchState → ℚ → Option (σ × SearchState) × List Event
  | fuel, s, ss, best =>
    if ss.spr_params.radius_min < radius_limit then
      match fuel with
      | 0 => (none, [])
      | f + 1 =>
        let pr := ti.spr_round ss.spr_params s
        let evs := [Event.persist, Event.paramWrite,
          Event.sprRound ss.spr_params.thorough ss.spr_params.radius_min ss.spr_params.radius_max]
        let ss1 := {ss with iteration := ss.iteration + 1, loglh := pr.2}
        if pr.2 - best > 1/10 then
          let ss2 := {ss1 with
            fast_spr_radius := ss1.spr_params.radius_max,
            spr_params := {ss1.spr_params with
              radius_min := ss1.spr_params.radius_min + radius_step,
              radius_max := ss1.spr_params.radius_max + radius_step}}
          let r := autodetect_loop ti radius_limit radius_step f pr.1 ss2 pr.2
          (r.1, evs ++ [Event.paramWrite, Event.paramWrite, Event.paramWrite] ++ r.2)
        else
          (some (pr.1, ss1), evs)
    else
      (some (s, ss), [])

/-- The fast-SPR `do`-`while` loop of `Optimizer::optimize_topology`
(Optimizer.cpp 179-194): persist, SPR round, full branch optimization,
repeat while the improvement exceeds `lh_eps`. -/
def fastspr_loop {σ : Type} (ti : TreeInfo σ) (lh_eps : ℚ) :
    ℕ → σ → SearchState → Option (σ × SearchState) × List Event
  | 0, _, _ => (none, [])
  | f + 1, s, ss =>
    let old := ss.loglh
    let pr := ti.spr_round ss.spr_params s
    let br := ti.optimize_branches lh_eps 1 pr.1
    let ss1 := {ss with iteration := ss.iteration + 1, loglh := br.2}
    let evs := [Event.persist, Event.paramWrite,
      Event.sprRound ss.spr_params.thorough ss.spr_params.radius_min ss.spr_params.radius_max,
      Event.optBranches lh_eps 1]
    if br.2 - old > lh_eps then
      let r := fastspr_loop ti lh_eps f br.1 ss1
      (r.1, evs ++ r.2)
    else
      (some (br.1, ss1), evs)

/-- The slow-SPR `do`-`while` loop of `Optimizer::optimize_topology`
(Optimizer.cpp 209-240): persist, thorough SPR round, full branch
optimization; on improvement reset the window to `[1, radius_step]`, on
no improvement slide it forward; repeat while `0 ≤ radius_min <
radius_limit`. -/
def slowspr_loop {σ : Type} (ti : TreeInfo σ) (lh_eps : ℚ) (radius_limit radius_step : ℤ) :
    ℕ → σ → SearchState → Option (σ × SearchState) × List Event
  | 0, _, _ => (none, [])
  | f + 1, s, ss =>
    let old := ss.loglh
    let pr := ti.spr_round ss.spr_params s
    let br := ti.optimize_branches lh_eps 1 pr.1
    let impr := br.2 - old > lh_eps
    let p2 :=
      if impr then
        {ss.spr_params with radius_min := 1, radius_max := radius_step}
      else
        {ss.spr_params with
          radius_min := ss.spr_params.radius_max + 1,
          radius_max := ss.spr_params.radius_max + radius_step}
    let ss1 := {ss with iteration := ss.iteration + 1, loglh := br.2, spr_params := p2}
    let evs := [Event.persist, Event.paramWrite,
      Event.sprRound ss.spr_params.thorough ss.spr_params.radius_min ss.spr_params.radius_max,
      Event.optBranches lh_eps 1, Event.paramWrite, Event.paramWrite]
    if 0 ≤ p2.radius_min ∧ p2.radius_min < radius_limit then
      let r := slowspr_loop ti lh_eps radius_limit radius_step f br.1 ss1
      (r.1, evs ++ r.2)
    else
      (some (br.1, ss1), evs)

/-- Slide both ends of the SPR radius window forward by `step`
(`radius_min += radius_step; radius_max += radius_step`). -/
def enlargeWindow (step : ℤ) (ss : SearchState) : SearchState :=
  {ss with spr_params := {ss.spr_params with
    radius_min := ss.spr_params.radius_min + step,
    radius_max := ss.spr_params.radius_max + step}}

/-- The result of one iteration of the adaptive fast SPR-NNI loop body:
new tree, new search state, the iteration's events, whether the loop
continues (`again`), and whether the forced-continuation branch fired
(`forced`). -/
structure FsIter (σ : Type) where
  tree : σ
  state : SearchState
  events : List Event
  again : Bool
  forced : Bool

/-- One iteration of the fast SPR-NNI `while (condition)` loop body of
`Optimizer::optimize_topology_adaptive` (Optimizer.cpp 360-394): persist,
SPR round, an NNI round when the window maximum exceeds twice the step,
then the stopping test on absolute and relative improvement.  The
special branch (Optimizer.cpp 378-387) forces continuation at an
enlarged window; otherwise, on small relative improvement with growth
room, the window is enlarged without forcing continuation. -/
def fastsprA_iter {σ : Type} (ti : TreeInfo σ) (lh_eps : ℚ) (easy_or_difficult : Bool)
    (radius_limit radius_step : ℤ) (npar : nni_round_params) (s : σ) (ss : SearchState) :
    FsIter σ :=
  let old := ss.loglh
  let pr := ti.spr_round ss.spr_params s
  let doNni := ss.spr_params.radius_max > 2 * radius_step
  let nn := if doNni then (nni ti npar pr.1).1 else pr
  let evN : List Event := if doNni then [Event.nniRound npar.tolerance npar.lh_epsilon] else []
  let v := nn.2
  let ss1 := {ss with iteration := ss.iteration + 1, loglh := v}
  let impr_perc := (v - old) / |v|
  let impr := v - old > lh_eps
  let condition := impr ∧ impr_perc ≥ 1/1000
  let evs := [Event.persist, Event.paramWrite,
    Event.sprRound ss.spr_params.thorough ss.spr_params.radius_min ss.spr_params.radius_max]
    ++ evN
  if ¬condition ∧ ¬easy_or_difficult = true ∧ ss.spr_params.radius_max = radius_step ∧
      radius_step < radius_limit then
    { tree := nn.1, state := enlargeWindow radius_step ss1,
      events := evs ++ [Event.paramWrite, Event.paramWrite, Event.forcedContinue],
      again := true, forced := true }
  else
    let grow := impr_perc ≤ 1/100 ∧ ss1.spr_params.radius_min + radius_step < radius_limit
    let ss2 := if grow then enlargeWindow radius_step ss1 else ss1
    let evG : List Event := if grow then [Event.paramWrite, Event.paramWrite] else []
    { tree := nn.1, state := ss2, events := evs ++ evG,
      again := decide condition, forced := false }

/-- The fast SPR-NNI `while (condition)` loop of
`Optimizer::optimize_topology_adaptive` (Optimizer.cpp 360-394), whose
controlling `condition` starts out `true` so the body runs at least
once: iterate `fastsprA_iter` while it asks to continue. -/
def fastspr_adaptive_loop {σ : Type} (ti : TreeInfo σ) (lh_eps : ℚ)
    (easy_or_difficult : Bool) (radius_limit radius_step : ℤ) (npar : nni_round_params) :
    ℕ → σ → SearchState → Option (σ × SearchState) × List Event
  | 0, _, _ => (none, [])
  | f + 1, s, ss =>
    let it := fastsprA_iter ti lh_eps easy_or_difficult radius_limit radius_step npar s ss
    if it.again then
      let r := fastspr_adaptive_loop ti lh_eps easy_or_difficult radius_limit radius_step
        npar f it.tree it.state
      (r.1, it.events ++ r.2)
    else
      (some (it.tree, it.state), it.events)

/-- The slow SPR-NNI `do`-`while` loop of
`Optimizer::optimize_topology_adaptive` (Optimizer.cpp 417-457): persist,
thorough SPR round, an NNI round when the window minimum exceeds the
step, full branch optimization; slide the window forward on no
improvement or small relative improvement with room left; repeat while
the window minimum is below the limit. -/
def slowspr_adaptive_loop {σ : Type} (ti : TreeInfo σ) (lh_eps : ℚ)
    (radius_limit radius_step : ℤ) (npar : nni_round_params) :
    ℕ → σ → SearchState → Option (σ × SearchState) × List Event
  | 0, _, _ => (none, [])
  | f + 1, s, ss =>
    let old := ss.loglh
    let pr := ti.spr_round ss.spr_params s
    let doNni := ss.spr_params.radius_min > radius_step
    let nn := if doNni then (nni ti npar pr.1).1 else pr
    let evN : List Event := if doNni then [Event.nniRound npar.tolerance npar.lh_epsilon] else []
    let br := ti.optimize_branches lh_eps 1 nn.1
    let impr := br.2 - old > lh_eps
    let impr_perc := (br.2 - old) / |br.2|
    let slide := ¬impr ∨ (ss.spr_params.radius_min + radius_step < radius_limit ∧ impr_perc ≤ 1/1000)
    let p2 :=
      if slide then
        {ss.spr_params with
          radius_min := ss.spr_params.radius_max + 1,
          radius_max := ss.spr_params.radius_max + radius_step}
      else ss.spr_params
    let evS : List Event := if slide then [Event.paramWrite, Event.paramWrite] else []
    let ss1 := {ss with iteration := ss.iteration + 1, loglh := br.2, spr_params := p2}
    let evs := [Event.persist, Event.paramWrite,
      Event.sprRound ss.spr_params.thorough ss.spr_params.radius_min ss.spr_params.radius_max]
      ++ evN ++ [Event.optBranches lh_eps 1] ++ evS
    if p2.radius_min < radius_limit then
      let r := slowspr_adaptive_loop ti lh_eps radius_limit radius_step npar f br.1 ss1
      (r.1, evs ++ r.2)
    else
      (some (br.1, ss1), evs)

/-- A link of a schedule: either plain code outside any checkpoint-gated
stage (its events are tagged `none`), or a stage body guarded by
`do_step` (its events are tagged with the stage marker). -/
inductive Link (σ : Type) where
  | plain (f : σ × SearchState → Option (σ × SearchState) × List Event)
  | staged (st : CheckpointStep) (body : σ × SearchState → Option (σ × SearchState) × List Event)

/-- Sequencing of trace-producing, fallible computations: on `none` the
rest of the schedule is not reached but the trace so far is kept. -/
def andThen {α β : Type} (x : Option α × List TEvent)
    (f : α → Option β × List TEvent) : Option β × List TEvent :=
  match x.1 with
  | some a => ((f a).1, x.2 ++ (f a).2)
  | none => (none, x.2)

/-- The `do_step` gate (Optimizer.cpp 76-85, 291-300, 486-495) around a
stage body: when `step >= resume_step` the cursor is set to `st` and the
body runs with its events tagged `some st`; otherwise the stage is
skipped entirely. -/
def runStage {σ : Type} (resume st : CheckpointStep)
    (body : σ × SearchState → Option (σ × SearchState) × List Event)
    (x : σ × SearchState) : Option (σ × SearchState) × List TEvent :=
  if resume.ord ≤ st.ord then
    let r := body (x.1, {x.2 with step := st})
    (r.1, r.2.map (fun e => (some st, e)))
  else
    (some x, [])

/-- Run one link. -/
def runLink {σ : Type} (resume : CheckpointStep) (l : Link σ) (x : σ × SearchState) :
    Option (σ × SearchState) × List TEvent :=
  match l with
  | .plain f =>
    let r := f x
    (r.1, r.2.map (fun e => ((none : Option CheckpointStep), e)))
  | .staged st body => runStage resume st body x

/-- Run a schedule: the links in order, threading tree and search state. -/
def runChain {σ : Type} (resume : CheckpointStep) :
    List (Link σ) → σ × SearchState → Option (σ × SearchState) × List TEvent
  | [], x => (some x, [])
  | l :: ls, x => andThen (runLink resume l x) (runChain resume ls)

/-- The brlenOpt stage body (Optimizer.cpp 87-92, 306-311, 497-502):
persist, then initial branch-length optimization with the fast epsilon
(10). -/
def brlenOptBody {σ : Type} (ti : TreeInfo σ) :
    σ × SearchState → Option (σ × SearchState) × List Event := fun y =>
  let br := ti.optimize_branches 10 1 y.1
  (some (br.1, {y.2 with loglh := br.2}), [Event.persist, Event.optBranches 10 1])

/-- A model-optimization stage body: persist, run `optimize_model` with
`eps`, then apply the stage's trailing search-state updates `upd` (which
never touch `loglh`), emitting `nw` parameter writes.  Used by the
modOpt1/modOpt2/modOpt3/modOpt4 stages of all schedules. -/
def modOptBody {σ : Type} (ti : TreeInfo σ) (eps : ℚ) (fuel : ℕ)
    (upd : ℚ → SearchState → SearchState) (nw : ℕ) :
    σ × SearchState → Option (σ × SearchState) × List Event := fun y =>
  let m := optimize_model ti eps fuel y.1
  match m.1 with
  | some p =>
    (some (p.1, upd p.2 {y.2 with loglh := p.2}),
      Event.persist :: m.2 ++ List.replicate nw Event.paramWrite)
  | none => (none, Event.persist :: m.2)

/-- The radiusDetectOrNNI stage body of `Optimizer::optimize_topology`
(Optimizer.cpp 117-150): on a fresh iteration counter, first initialize
the autodetection window (five parameter writes, before the loop's first
persist), then the autodetection loop. -/
def radiusDetectBody {σ : Type} (ti : TreeInfo σ) (radius_limit radius_step : ℤ) (fuel : ℕ) :
    σ × SearchState → Option (σ × SearchState) × List Event := fun y =>
  let ssI :=
    if y.2.iteration = 0 then
      {y.2 with
        spr_params := {y.2.spr_params with
          thorough := false
          radius_min := 1
          radius_max := 5
          ntopol_keep := 0
          subtree_cutoff := 0},
        fast_spr_radius := 5}
    else y.2
  let evI : List Event := if y.2.iteration = 0 then List.replicate 5 Event.paramWrite else []
  let r := autodetect_loop ti radius_limit radius_step fuel y.1 ssI ssI.loglh
  (r.1, evI ++ r.2)

/-- The radiusDetectOrNNI stage body of
`Optimizer::optimize_topology_adaptive` (Optimizer.cpp 325-328): persist,
then one NNI round when the difficulty is easy-or-difficult. -/
def adRadiusBody {σ : Type} (ti : TreeInfo σ) (easy_or_difficult : Bool) :
    σ × SearchState → Option (σ × SearchState) × List Event := fun y =>
  if easy_or_difficult then
    let nr := nni ti y.2.nni_params y.1
    (some (nr.1.1, {y.2 with loglh := nr.1.2}), Event.persist :: nr.2)
  else
    (some y, [Event.persist])

/-- The modOpt2 stage body of `Optimizer::optimize_topology_adaptive`
(Optimizer.cpp 331-338): persist, then — only when the difficulty is
easy-or-difficult — a model optimization.  The source passes
`fast_modopt_eps` (10) to `optimize_model` here, although its log line
prints `interim_modopt_eps` (3). -/
def adModOpt2Body {σ : Type} (ti : TreeInfo σ) (easy_or_difficult : Bool) (fuel : ℕ) :
    σ × SearchState → Option (σ × SearchState) × List Event := fun y =>
  if easy_or_difficult then
    modOptBody ti 10 fuel (fun _ ss => ss) 0 y
  else
    (some y, [Event.persist])

/-- The fastSPR stage body of `Optimizer::optimize_topology_adaptive`
(Optimizer.cpp 348-395): on a fresh iteration counter, initialize the
fast window (five parameter writes, before the loop's first persist),
then the fast SPR-NNI loop. -/
def adFastSPRBody {σ : Type} (ti : TreeInfo σ) (lh_eps : ℚ) (easy_or_difficult : Bool)
    (radius_limit radius_step : ℤ) (fuel : ℕ) :
    σ × SearchState → Option (σ × SearchState) × List Event := fun y =>
  let ssI :=
    if y.2.iteration = 0 then
      {y.2 with
        spr_params := {y.2.spr_params with
          thorough := false
          radius_min := 1
          radius_max := radius_step
          ntopol_keep := 0
          subtree_cutoff := 0}}
    else y.2
  let evI : List Event := if y.2.iteration = 0 then List.replicate 5 Event.paramWrite else []
  let r := fastspr_adaptive_loop ti lh_eps easy_or_difficult radius_limit radius_step
    y.2.nni_params fuel y.1 ssI
  (r.1, evI ++ r.2)

/-- The finish stage body (Optimizer.cpp 250-251, 466-467, 512-513): a
final persist. -/
def finishBody {σ : Type} :
    σ × SearchState → Option (σ × SearchState) × List Event := fun y =>
  (some y, [Event.persist])

/-- The code of `Optimizer::optimize_topology` before the first stage
(Optimizer.cpp 58-74): bind the search state, set the branch-length
epsilons inside the SPR parameters, and compute the initial objective. -/
def fixedPre {σ : Type} (opt : Optimizer) (ti : TreeInfo σ) :
    σ × SearchState → Option (σ × SearchState) × List Event := fun y =>
  (some (y.1, {y.2 with
      spr_params := {y.2.spr_params with
        lh_epsilon_brlen_full := opt.lh_epsilon
        lh_epsilon_brlen_triplet := opt.lh_epsilon_brlen_triplet},
      loglh := ti.loglh y.1}),
    [Event.paramWrite, Event.paramWrite, Event.queryLoglh])

/-- The code of `Optimizer::optimize_topology_adaptive` before the first
stage (Optimizer.cpp 264-303): additionally set the NNI parameters from
the options; the initial objective is computed twice in the source. -/
def adaptPre {σ : Type} (opt : Optimizer) (ti : TreeInfo σ) :
    σ × SearchState → Option (σ × SearchState) × List Event := fun y =>
  (some (y.1, {y.2 with
      spr_params := {y.2.spr_params with
        lh_epsilon_brlen_full := opt.lh_epsilon
        lh_epsilon_brlen_triplet := opt.lh_epsilon_brlen_triplet},
      nni_params := {tolerance := opt.nni_tolerance, lh_epsilon := opt.nni_epsilon},
      loglh := ti.loglh y.1}),
    [Event.paramWrite, Event.paramWrite, Event.paramWrite, Event.paramWrite,
      Event.queryLoglh, Event.queryLoglh])

/-- The code of `Optimizer::evaluate` before the first stage
(Optimizer.cpp 476-484): bind the search state and compute the initial
objective. -/
def evalPre {σ : Type} (ti : TreeInfo σ) :
    σ × SearchState → Option (σ × SearchState) × List Event := fun y =>
  (some (y.1, {y.2 with loglh := ti.loglh y.1}), [Event.queryLoglh])

/-- `Optimizer::optimize_topology` (Optimizer.cpp 52-254): the fixed
9-stage schedule.  When the user supplied an SPR radius
(`opt.spr_radius > 0`) the radius-detection stage is replaced by a plain
assignment of `best_fast_radius` outside any `do_step` gate
(Optimizer.cpp 111-112). -/
def optimize_topology {σ : Type} (opt : Optimizer) (ti : TreeInfo σ) (fuel : ℕ)
    (ss0 : SearchState) (s0 : σ) : Option (σ × SearchState) × List TEvent :=
  let radius_limit : ℤ := min 22 ((ti.tip_count : ℤ) - 3)
  let radius_step : ℤ := 5
  runChain ss0.step [
    Link.plain (fixedPre opt ti),
    Link.staged CheckpointStep.brlenOpt (brlenOptBody ti),
    Link.staged CheckpointStep.modOpt1
      (modOptBody ti 10 fuel (fun _ ss => {ss with iteration := 0}) 1),
    (if 0 < opt.spr_radius then
      Link.plain (fun y =>
        (some (y.1, {y.2 with fast_spr_radius := opt.spr_radius}), [Event.paramWrite]))
    else
      Link.staged CheckpointStep.radiusDetectOrNNI
        (radiusDetectBody ti radius_limit radius_step fuel)),
    Link.staged CheckpointStep.modOpt2
      (modOptBody ti 3 fuel (fun v ss =>
        {ss with
          iteration := 0
          spr_params := ({ss.spr_params with
            thorough := false
            radius_min := 1
            radius_max := ss.fast_spr_radius
            ntopol_keep := 20
            subtree_cutoff := opt.spr_cutoff}).reset_cutoff_info v}) 7),
    Link.staged CheckpointStep.fastSPR
      (fun y => fastspr_loop ti opt.lh_epsilon fuel y.1 y.2),
    Link.staged CheckpointStep.modOpt3
      (modOptBody ti 1 fuel (fun _ ss =>
        {ss with
          iteration := 0
          spr_params := {ss.spr_params with
            thorough := true
            radius_min := 1
            radius_max := radius_step}}) 4),
    Link.staged CheckpointStep.slowSPR
      (fun y => slowspr_loop ti opt.lh_epsilon radius_limit radius_step fuel y.1 y.2),
    Link.staged CheckpointStep.modOpt4
      (modOptBody ti (1/10) fuel (fun _ ss => ss) 0),
    Link.staged CheckpointStep.finish finishBody
  ] (s0, ss0)

/-- `Optimizer::optimize_topology_adaptive` (Optimizer.cpp 256-470): the
difficulty-adaptive 9-stage schedule.  The local `radius_step` of the
source is the non-thorough step until modOpt3 reassigns it to the
thorough step, so the slowSPR stage sees the thorough step exactly when
modOpt3 executed, i.e. when `resume ≤ modOpt3`. -/
def optimize_topology_adaptive {σ : Type} (opt : Optimizer) (ti : TreeInfo σ) (fuel : ℕ)
    (ss0 : SearchState) (s0 : σ) (difficulty : ℚ) :
    Option (σ × SearchState) × List TEvent :=
  let easy_or_difficult : Bool := decide (difficulty ≤ 3/10) || decide (7/10 ≤ difficulty)
  let radius_limit : ℤ := min (spr_radius_limit_adaptive difficulty) ((ti.tip_count : ℤ) - 3)
  let rstepF : ℤ := spr_radius_step_adaptive radius_limit false
  let rstepS : ℤ := spr_radius_step_adaptive radius_limit true
  let stepSlow : ℤ := if ss0.step.ord ≤ CheckpointStep.modOpt3.ord then rstepS else rstepF
  runChain ss0.step [
    Link.plain (adaptPre opt ti),
    Link.staged CheckpointStep.brlenOpt (brlenOptBody ti),
    Link.staged CheckpointStep.modOpt1
      (modOptBody ti 10 fuel (fun _ ss => {ss with iteration := 0}) 1),
    Link.staged CheckpointStep.radiusDetectOrNNI (adRadiusBody ti easy_or_difficult),
    Link.staged CheckpointStep.modOpt2 (adModOpt2Body ti easy_or_difficult fuel),
    Link.staged CheckpointStep.fastSPR
      (adFastSPRBody ti opt.lh_epsilon easy_or_difficult radius_limit rstepF fuel),
    Link.staged CheckpointStep.modOpt3
      (modOptBody ti 3 fuel (fun v ss =>
        {ss with
          iteration := 0
          spr_params := ({ss.spr_params with
            thorough := true
            radius_min := 1
            radius_max := rstepS
            ntopol_keep := 20
            subtree_cutoff := opt.spr_cutoff}).reset_cutoff_info v}) 7),
    Link.staged CheckpointStep.slowSPR
      (fun y => slowspr_adaptive_loop ti opt.lh_epsilon radius_limit stepSlow
        y.2.nni_params fuel y.1 y.2),
    Link.staged CheckpointStep.modOpt4
      (modOptBody ti (1/10) fuel (fun _ ss => ss) 0),
    Link.staged CheckpointStep.finish finishBody
  ] (s0, ss0)

/-- `Optimizer::evaluate` (Optimizer.cpp 472-516): branch-length
optimization, one model optimization, finish.  The source calls
`optimize_model(treeinfo)` with its defaulted epsilon argument; the
default lives in the header outside the given sources and is modelled
from the spec ("one model optimization at the configured main epsilon")
and the log line printing `_lh_epsilon`. -/
def evaluate {σ : Type} (opt : Optimizer) (ti : TreeInfo σ) (fuel : ℕ)
    (ss0 : SearchState) (s0 : σ) : Option (σ × SearchState) × List TEvent :=
  runChain ss0.step [
    Link.plain (evalPre ti),
    Link.staged CheckpointStep.brlenOpt (brlenOptBody ti),
    Link.staged CheckpointStep.modOpt1
      (modOptBody ti opt.lh_epsilon fuel (fun _ ss => ss) 0),
    Link.staged CheckpointStep.finish finishBody
  ] (s0, ss0)

/-- A stub tree whose objective is the constant `c` and whose operations
leave the tree unchanged; `tips` leaf nodes. -/
def constTI (c : ℚ) (tips : ℕ) : TreeInfo Unit where
  loglh := fun _ => c
  optimize_params_all := fun _ _ => ()
  optimize_branches := fun _ _ _ => ((), c)
  spr_round := fun _ _ => ((), c)
  nni_round := fun _ _ => ((), c)
  tip_count := tips

/-- A stub tree whose SPR/NNI/branch operations never improve the
objective (they return the tree and its current objective unchanged) but
whose model-parameter optimization always improves the objective by
100. -/
def badTI : TreeInfo ℤ where
  loglh := fun n => (n : ℚ)
  optimize_params_all := fun _ n => n + 100
  optimize_branches := fun _ _ n => (n, (n : ℚ))
  spr_round := fun _ n => (n, (n : ℚ))
  nni_round := fun _ n => (n, (n : ℚ))
  tip_count := 30

/-- A default search state resuming at `st`. -/
def initSS (st : CheckpointStep) : SearchState where
  loglh := 0
  iteration := 0
  step := st
  spr_params := {
    thorough := false
    radius_min := 0
    radius_max := 0
    ntopol_keep := 0
    subtree_cutoff := 0
    lh_epsilon_brlen_full := 0
    lh_epsilon_brlen_triplet := 0
    cutoff_ref := 0}
  nni_params := {tolerance := 0, lh_epsilon := 0}
  fast_spr_radius := 0

/-- A concrete option set: main epsilon 0.1, autodetected SPR radius. -/
def cfg0 : Optimizer where
  lh_epsilon := 1/10
  lh_epsilon_brlen_triplet := 1/10
  spr_radius := 0
  spr_cutoff := 1
  nni_epsilon := 1/10
  nni_tolerance := 1/10

/-- The events a run emitted inside the stage `st`, in order. -/
def stageEvents (tr : List TEvent) (st : CheckpointStep) : List Event :=
  tr.filterMap (fun te => if te.1 = some st then some te.2 else none)

/-- Does the event list start with a checkpoint persist (or is empty)? -/
def persistIsFirstAction : List Event → Bool
  | [] => true
  | Event.persist :: _ => true
  | _ :: _ => false

/-- Worker for `persistPrecedesMutating`: `seen` records whether a
persist has occurred yet; every mutating `TreeInfo` event must come
after one. -/
def ppmGo : List Event → Bool → Bool
  | [], _ => true
  | e :: r, seen =>
    if e.isMutatingTI then seen && ppmGo r seen
    else ppmGo r (seen || decide (e = Event.persist))

/-- Every mutating `TreeInfo` operation in the list is preceded by a
checkpoint persist. -/
def persistPrecedesMutating (l : List Event) : Bool :=
  ppmGo l false

/-- How often the forced-continuation branch of the adaptive fast-SPR
loop fired. -/
def countForced (l : List Event) : ℕ :=
  l.countP (fun e => decide (e = Event.forcedContinue))

/-- C7: `spr_radius_limit_adaptive` peaks at 20 for difficulty 0.5, is 5
at the difficulty extremes 0 and 1, and is symmetric about 0.5 on the
difficulty range [0, 1]. -/
theorem C7_spr_radius_limit_shape :
    spr_radius_limit_adaptive (1/2) = 20 ∧
    spr_radius_limit_adaptive 0 = 5 ∧
    spr_radius_limit_adaptive 1 = 5 ∧
    ∀ d : ℚ, 0 ≤ d → d ≤ 1 →
      spr_radius_limit_adaptive d = spr_radius_limit_adaptive (1 - d) := by
  refine ⟨by norm_num [spr_radius_limit_adaptive, ctrunc],
    by norm_num [spr_radius_limit_adaptive, ctrunc],
    by norm_num [spr_radius_limit_adaptive, ctrunc], ?_⟩
  intro d h0 h1
  unfold spr_radius_limit_adaptive
  rcases lt_trichotomy d (1/2) with h | h | h
  · rw [if_pos (le_of_lt h), if_neg (by linarith)]
    congr 1
    ring
  · rw [h]
    norm_num
  · rw [if_neg (by linarith), if_pos (by linarith)]
    congr 1
    ring

theorem C7_witness :
    (0 : ℚ) ≤ 1/5 ∧ (1/5 : ℚ) ≤ 1 ∧
    spr_radius_limit_adaptive (1/5) = spr_radius_limit_adaptive (1 - 1/5) :=
  ⟨by norm_num, by norm_num,
    C7_spr_radius_limit_shape.2.2.2 (1/5) (by norm_num) (by norm_num)⟩

/-- C9: `optimize_model` has a do-while structure, so any call with
enough fuel for at least one iteration performs at least one
`optimize_params_all` call, whatever the epsilon and the tree. -/
theorem C9_optimize_model_at_least_one_iteration {σ : Type} (ti : TreeInfo σ) (eps : ℚ)
    (fuel : ℕ) (s : σ) (h : 1 ≤ fuel) :
    1 ≤ (optimize_model ti eps fuel s).2.countP (fun e => e.isOptParams) := by
  rcases fuel with _ | f
  · omega
  · unfold optimize_model optModelGo
    dsimp only
    split
    · simp [List.countP_cons, Event.isOptParams]
    · simp [List.countP_cons, Event.isOptParams]

theorem C9_witness :
    1 ≤ (optimize_model (constTI (-50) 10) (5 : ℚ) 1 ()).2.countP (fun e => e.isOptParams) :=
  C9_optimize_model_at_least_one_iteration (constTI (-50) 10) 5 1 () (by decide)

/-- C1: at the modOpt2 stage of `optimize_topology_adaptive` with an
easy difficulty (0.2), the only model optimization performed uses
epsilon 10 (the fast epsilon), not the interim epsilon 3 that the
source's own log line at that spot prints: run on a constant stub tree
resuming at modOpt2, the modOpt2 stage emits exactly one
`optimize_params_all` call and its epsilon is 10. -/
theorem C1_modOpt2_uses_fast_epsilon :
    ((optimize_topology_adaptive cfg0 (constTI (-100) 30) 30
        (initSS CheckpointStep.modOpt2) () (1/5)).2.filter
      (fun te => decide (te.1 = some CheckpointStep.modOpt2) && te.2.isOptParams))
    = [(some CheckpointStep.modOpt2, Event.optParams 10)] := by
  with_unfolding_all decide

/-- C2 counterexample: in `optimize_topology` run on a constant stub
tree resuming at radiusDetectOrNNI, the radiusDetectOrNNI stage's first
action is a search-parameter write (the window initialization of
Optimizer.cpp 119-126), not the checkpoint persist, which only happens
inside the autodetection loop (Optimizer.cpp 132). -/
theorem C2_counterexample :
    persistIsFirstAction (stageEvents
      (optimize_topology cfg0 (constTI (-50) 10) 30 (initSS CheckpointStep.radiusDetectOrNNI) ()).2
      CheckpointStep.radiusDetectOrNNI) = false ∧
    (stageEvents
      (optimize_topology cfg0 (constTI (-50) 10) 30 (initSS CheckpointStep.radiusDetectOrNNI) ()).2
      CheckpointStep.radiusDetectOrNNI).head? = some Event.paramWrite := by
  constructor
  · with_unfolding_all decide
  · with_unfolding_all decide

lemma mem_andThen {α β : Type} {x : Option α × List TEvent} {f : α → Option β × List TEvent}
    {te : TEvent} (h : te ∈ (andThen x f).2) :
    te ∈ x.2 ∨ ∃ a, x.1 = some a ∧ te ∈ (f a).2 := by
  unfold andThen at h
  rcases hx : x.1 with _ | a
  · rw [hx] at h
    exact Or.inl h
  · rw [hx] at h
    rcases List.mem_append.1 h with h' | h'
    · exact Or.inl h'
    · exact Or.inr ⟨a, rfl, h'⟩

lemma mem_runLink {σ : Type} {resume : CheckpointStep} {l : Link σ} {x : σ × SearchState}
    {te : TEvent} (h : te ∈ (runLink resume l x).2) :
    (∃ f, l = Link.plain f ∧ te.1 = none ∧ te.2 ∈ (f x).2) ∨
    (∃ st body, l = Link.staged st body ∧ te.1 = some st ∧ resume.ord ≤ st.ord ∧
      te.2 ∈ (body (x.1, {x.2 with step := st})).2) := by
  rcases l with f | ⟨st, body⟩
  · left
    simp only [runLink, List.mem_map] at h
    rcases h with ⟨e, he, rfl⟩
    exact ⟨f, rfl, rfl, he⟩
  · right
    simp only [runLink, runStage] at h
    by_cases hg : resume.ord ≤ st.ord
    · rw [if_pos hg] at h
      simp only [List.mem_map] at h
      rcases h with ⟨e, he, rfl⟩
      exact ⟨st, body, rfl, rfl, hg, he⟩
    · rw [if_neg hg] at h
      simp at h

lemma mem_runChain {σ : Type} {resume : CheckpointStep} :
    ∀ {ls : List (Link σ)} {x : σ × SearchState} {te : TEvent},
    te ∈ (runChain resume ls x).2 →
    ∃ l ∈ ls, ∃ x', te ∈ (runLink resume l x').2 := by
  intro ls
  induction ls with
  | nil =>
    intro x te h
    simp [runChain] at h
  | cons l ls ih =>
    intro x te h
    rcases mem_andThen h with h' | ⟨a, _, h'⟩
    · exact ⟨l, List.mem_cons_self l ls, x, h'⟩
    · rcases ih h' with ⟨l', hl', x', hte⟩
      exact ⟨l', List.mem_cons_of_mem l hl', x', hte⟩

/-- Events of `optimize_model`'s trace are model optimizations and
objective queries only. -/
lemma optModelGo_events {σ : Type} (ti : TreeInfo σ) (eps : ℚ) :
    ∀ (f : ℕ) (s : σ) (cur : ℚ) (e : Event), e ∈ (optModelGo ti eps f s cur).2 →
      e = Event.optParams eps ∨ e = Event.queryLoglh := by
  intro f
  induction f with
  | zero =>
    intro s cur e h
    simp [optModelGo] at h
  | succ f ih =>
    intro s cur e h
    unfold optModelGo at h
    dsimp only at h
    split at h
    · simp only [List.mem_cons] at h
      rcases h with rfl | rfl | h
      · exact Or.inl rfl
      · exact Or.inr rfl
      · exact ih _ _ _ h
    · simp only [List.mem_cons, List.not_mem_nil, or_false] at h
      rcases h with rfl | rfl
      · exact Or.inl rfl
      · exact Or.inr rfl

lemma optimize_model_events {σ : Type} (ti : TreeInfo σ) (eps : ℚ) (fuel : ℕ) (s : σ)
    (e : Event) (h : e ∈ (optimize_model ti eps fuel s).2) :
    e = Event.optParams eps ∨ e = Event.queryLoglh := by
  unfold optimize_model at h
  rcases List.mem_cons.1 h with rfl | h'
  · exact Or.inr rfl
  · exact optModelGo_events ti eps fuel s _ e h'

/-- Events of a `modOptBody` trace are persists, parameter writes, model
optimizations with the body's epsilon, and objective queries. -/
lemma modOptBody_events {σ : Type} (ti : TreeInfo σ) (eps : ℚ) (fuel : ℕ)
    (upd : ℚ → SearchState → SearchState) (nw : ℕ) (x : σ × SearchState) (e : Event)
    (h : e ∈ (modOptBody ti eps fuel upd nw x).2) :
    e = Event.persist ∨ e = Event.paramWrite ∨ e = Event.optParams eps ∨
      e = Event.queryLoglh := by
  revert h
  unfold modOptBody
  dsimp only
  split
  · intro h
    rcases List.mem_cons.1 h with rfl | h'
    · exact Or.inl rfl
    · rcases List.mem_append.1 h' with h'' | h''
      · rcases optimize_model_events ti eps fuel _ _ h'' with rfl | rfl
        · exact Or.inr (Or.inr (Or.inl rfl))
        · exact Or.inr (Or.inr (Or.inr rfl))
      · rcases List.eq_of_mem_replicate h'' with rfl
        exact Or.inr (Or.inl rfl)
  · intro h
    rcases List.mem_cons.1 h with rfl | h'
    · exact Or.inl rfl
    · rcases optimize_model_events ti eps fuel _ _ h' with rfl | rfl
      · exact Or.inr (Or.inr (Or.inl rfl))
      · exact Or.inr (Or.inr (Or.inr rfl))

/-- C8: `evaluate` never performs an SPR or NNI round: for every tree
oracle, configuration, search state and fuel, its trace contains no
`spr_round` and no `nni_round` event (its `TreeInfo` calls are objective
queries, branch-length optimizations and model optimizations only). -/
theorem C8_evaluate_no_spr_nni {σ : Type} (opt : Optimizer) (ti : TreeInfo σ) (fuel : ℕ)
    (ss0 : SearchState) (s0 : σ) :
    (evaluate opt ti fuel ss0 s0).2.filter
      (fun te => te.2.isSpr || te.2.isNni) = [] := by
  rw [List.filter_eq_nil_iff]
  intro te hte
  rcases @mem_runChain σ ss0.step _ _ te hte with ⟨l, hl, x', h'⟩
  simp only [List.mem_cons, List.not_mem_nil, or_false] at hl
  rcases hl with rfl | rfl | rfl | rfl
  · rcases mem_runLink h' with ⟨f, hf, _, hb⟩ | ⟨st, body, hsb, _, _, hb⟩
    · injection hf with hf
      subst hf
      simp only [evalPre, List.mem_singleton] at hb
      simp [hb, Event.isSpr, Event.isNni]
    · cases hsb
  · rcases mem_runLink h' with ⟨f, hf, _, hb⟩ | ⟨st, body, hsb, _, _, hb⟩
    · cases hf
    · injection hsb with h1 h2
      subst h1
      subst h2
      simp only [brlenOptBody, List.mem_cons, List.mem_singleton,
        List.not_mem_nil, or_false] at hb
      rcases hb with hb | hb
      · simp [hb, Event.isSpr, Event.isNni]
      · simp [hb, Event.isSpr, Event.isNni]
  · rcases mem_runLink h' with ⟨f, hf, _, hb⟩ | ⟨st, body, hsb, _, _, hb⟩
    · cases hf
    · injection hsb with h1 h2
      subst h1
      subst h2
      rcases modOptBody_events ti opt.lh_epsilon fuel _ _ _ _ hb with hb | hb | hb | hb
      · simp [hb, Event.isSpr, Event.isNni]
      · simp [hb, Event.isSpr, Event.isNni]
      · simp [hb, Event.isSpr, Event.isNni]
      · simp [hb, Event.isSpr, Event.isNni]
  · rcases mem_runLink h' with ⟨f, hf, _, hb⟩ | ⟨st, body, hsb, _, _, hb⟩
    · cases hf
    · injection hsb with h1 h2
      subst h1
      subst h2
      simp only [finishBody, List.mem_singleton] at hb
      simp [hb, Event.isSpr, Event.isNni]

/-- Any mutating `TreeInfo` event of a chain whose plain links perform
no mutating `TreeInfo` operation was emitted inside a stage that passed
the `do_step` gate. -/
lemma runChain_mutating {σ : Type} {resume : CheckpointStep} {ls : List (Link σ)}
    {x : σ × SearchState} {te : TEvent}
    (hp : ∀ f, Link.plain f ∈ ls → ∀ x' e, e ∈ (f x').2 → e.isMutatingTI = false)
    (h : te ∈ (runChain resume ls x).2) (hm : te.2.isMutatingTI = true) :
    ∃ st, te.1 = some st ∧ resume.ord ≤ st.ord := by
  rcases mem_runChain h with ⟨l, hl, x', h'⟩
  rcases mem_runLink h' with ⟨f, rfl, _, hb⟩ | ⟨st, body, rfl, ht, hg, _⟩
  · rw [hp f hl x' te.2 hb] at hm
    cases hm
  · exact ⟨st, ht, hg⟩

/-- C3: skip-on-resume.  In all three schedules, every mutating
`TreeInfo` operation (`optimize_branches`, `spr_round`, `nni_round`,
`optimize_params_all`) is emitted inside a stage whose `CheckpointStep`
ordinal is at least the resume cursor `ss0.step`: no stage strictly
below the cursor performs mutating work. -/
theorem C3_skip_on_resume {σ : Type} (opt : Optimizer) (ti : TreeInfo σ) (fuel : ℕ)
    (ss0 : SearchState) (s0 : σ) (difficulty : ℚ) (te : TEvent)
    (h1 : te ∈ (optimize_topology opt ti fuel ss0 s0).2 ∨
      te ∈ (optimize_topology_adaptive opt ti fuel ss0 s0 difficulty).2 ∨
      te ∈ (evaluate opt ti fuel ss0 s0).2)
    (hm : te.2.isMutatingTI = true) :
    ∃ st, te.1 = some st ∧ ss0.step.ord ≤ st.ord := by
  rcases h1 with h | h | h
  · simp only [optimize_topology] at h
    refine runChain_mutating ?_ h hm
    intro f hf x' e he
    by_cases hc : 0 < opt.spr_radius
    · rw [if_pos hc] at hf
      simp only [List.mem_cons, List.not_mem_nil, or_false] at hf
      rcases hf with hf | hf | hf | hf | hf | hf | hf | hf | hf | hf
      · injection hf with hf
        subst hf
        simp only [fixedPre, List.mem_cons, List.mem_singleton,
          List.not_mem_nil, or_false] at he
        rcases he with rfl | rfl | rfl
        · rfl
        · rfl
        · rfl
      · cases hf
      · cases hf
      · injection hf with hf
        subst hf
        simp only [List.mem_singleton] at he
        subst he
        rfl
      · cases hf
      · cases hf
      · cases hf
      · cases hf
      · cases hf
      · cases hf
    · rw [if_neg hc] at hf
      simp only [List.mem_cons, List.not_mem_nil, or_false] at hf
      rcases hf with hf | hf | hf | hf | hf | hf | hf | hf | hf | hf
      · injection hf with hf
        subst hf
        simp only [fixedPre, List.mem_cons, List.mem_singleton,
          List.not_mem_nil, or_false] at he
        rcases he with rfl | rfl | rfl
        · rfl
        · rfl
        · rfl
      · cases hf
      · cases hf
      · cases hf
      · cases hf
      · cases hf
      · cases hf
      · cases hf
      · cases hf
      · cases hf
  · simp only [optimize_topology_adaptive] at h
    refine runChain_mutating ?_ h hm
    intro f hf x' e he
    simp only [List.mem_cons, List.not_mem_nil, or_false] at hf
    rcases hf with hf | hf | hf | hf | hf | hf | hf | hf | hf | hf
    · injection hf with hf
      subst hf
      simp only [adaptPre, List.mem_cons, List.mem_singleton,
        List.not_mem_nil, or_false] at he
      rcases he with rfl | rfl | rfl | rfl | rfl | rfl
      · rfl
      · rfl
      · rfl
      · rfl
      · rfl
      · rfl
    · cases hf
    · cases hf
    · cases hf
    · cases hf
    · cases hf
    · cases hf
    · cases hf
    · cases hf
    · cases hf
  · simp only [evaluate] at h
    refine runChain_mutating ?_ h hm
    intro f hf x' e he
    simp only [List.mem_cons, List.not_mem_nil, or_false] at hf
    rcases hf with hf | hf | hf | hf
    · injection hf with hf
      subst hf
      simp only [evalPre, List.mem_singleton] at he
      subst he
      rfl
    · cases hf
    · cases hf
    · cases hf

theorem C3_witness :
    ∃ st, (some CheckpointStep.brlenOpt, Event.optBranches 10 1).1 = some st ∧
      (initSS CheckpointStep.brlenOpt).step.ord ≤ st.ord :=
  C3_skip_on_resume cfg0 (constTI (-50) 10) 5 (initSS CheckpointStep.brlenOpt) () 0
    (some CheckpointStep.brlenOpt, Event.optBranches 10 1)
    (Or.inr (Or.inr (by with_unfolding_all decide)))
    (by decide)

/-- A state transformer that can change only the `loglh` and `step`
fields of the search state. -/
def PreservesSkel {σ τ : Type} (f : σ × SearchState → Option (σ × SearchState) × τ) : Prop :=
  ∀ x r, (f x).1 = some r →
    r.2.iteration = x.2.iteration ∧ r.2.spr_params = x.2.spr_params ∧
    r.2.nni_params = x.2.nni_params ∧ r.2.fast_spr_radius = x.2.fast_spr_radius

/-- The link's computation can change only `loglh` and `step`. -/
def Link.preservesSkel {σ : Type} : Link σ → Prop
  | .plain f => PreservesSkel f
  | .staged _ body => PreservesSkel body

lemma runLink_preservesSkel {σ : Type} {resume : CheckpointStep} {l : Link σ}
    (hl : l.preservesSkel) : PreservesSkel (runLink resume l) := by
  rcases l with f | ⟨st, body⟩
  · intro x r h
    simp only [runLink] at h
    exact hl x r h
  · intro x r h
    simp only [runLink, runStage] at h
    by_cases hg : resume.ord ≤ st.ord
    · rw [if_pos hg] at h
      have := hl (x.1, {x.2 with step := st}) r h
      simpa using this
    · rw [if_neg hg] at h
      simp only [Option.some.injEq] at h
      subst h
      exact ⟨rfl, rfl, rfl, rfl⟩

lemma runChain_preservesSkel {σ : Type} {resume : CheckpointStep} :
    ∀ {ls : List (Link σ)}, (∀ l ∈ ls, l.preservesSkel) →
    PreservesSkel (runChain resume ls) := by
  intro ls
  induction ls with
  | nil =>
    intro _ x r h
    simp only [runChain, Option.some.injEq] at h
    subst h
    exact ⟨rfl, rfl, rfl, rfl⟩
  | cons l ls ih =>
    intro hall x r h
    simp only [runChain, andThen] at h
    rcases hx : (runLink resume l x).1 with _ | a
    · rw [hx] at h
      cases h
    · rw [hx] at h
      have h1 := runLink_preservesSkel (hall l (List.mem_cons_self l ls)) x a hx
      have h2 := ih (fun l' hl' => hall l' (List.mem_cons_of_mem l hl')) a r h
      exact ⟨h2.1.trans h1.1, h2.2.1.trans h1.2.1, h2.2.2.1.trans h1.2.2.1,
        h2.2.2.2.trans h1.2.2.2⟩

/-- C10: `evaluate` writes only the `loglh` and `step` fields of the
search state: whenever it completes, the `iteration`, `spr_params`,
`nni_params` and `fast_spr_radius` fields of the resulting state equal
those of the input state. -/
theorem C10_evaluate_state_frame {σ : Type} (opt : Optimizer) (ti : TreeInfo σ) (fuel : ℕ)
    (ss0 : SearchState) (s0 : σ) (r : σ × SearchState)
    (h : (evaluate opt ti fuel ss0 s0).1 = some r) :
    r.2.iteration = ss0.iteration ∧ r.2.spr_params = ss0.spr_params ∧
    r.2.nni_params = ss0.nni_params ∧ r.2.fast_spr_radius = ss0.fast_spr_radius := by
  have hall : ∀ l ∈ ([
      Link.plain (evalPre ti),
      Link.staged CheckpointStep.brlenOpt (brlenOptBody ti),
      Link.staged CheckpointStep.modOpt1
        (modOptBody ti opt.lh_epsilon fuel (fun _ ss => ss) 0),
      Link.staged CheckpointStep.finish finishBody] : List (Link σ)), l.preservesSkel := by
    intro l hl
    simp only [List.mem_cons, List.not_mem_nil, or_false] at hl
    rcases hl with rfl | rfl | rfl | rfl
    · intro x r h
      simp only [evalPre, Link.preservesSkel, Option.some.injEq] at h
      subst h
      exact ⟨rfl, rfl, rfl, rfl⟩
    · intro x r h
      simp only [brlenOptBody, Link.preservesSkel, Option.some.injEq] at h
      subst h
      exact ⟨rfl, rfl, rfl, rfl⟩
    · intro x r h
      revert h
      simp only [Link.preservesSkel, modOptBody]
      split
      · intro h
        simp only [Option.some.injEq] at h
        subst h
        exact ⟨rfl, rfl, rfl, rfl⟩
      · intro h
        cases h
    · intro x r h
      simp only [finishBody, Link.preservesSkel, Option.some.injEq] at h
      subst h
      exact ⟨rfl, rfl, rfl, rfl⟩
  have := runChain_preservesSkel hall (s0, ss0) r (by
    simpa only [evaluate] using h)
  simpa using this

/-- The final search state of a small concrete `evaluate` run. -/
def ssEvalFinal : SearchState :=
  {initSS CheckpointStep.brlenOpt with loglh := -50, step := CheckpointStep.finish}

theorem C10_witness :
    ssEvalFinal.iteration = (initSS CheckpointStep.brlenOpt).iteration ∧
    ssEvalFinal.spr_params = (initSS CheckpointStep.brlenOpt).spr_params ∧
    ssEvalFinal.nni_params = (initSS CheckpointStep.brlenOpt).nni_params ∧
    ssEvalFinal.fast_spr_radius = (initSS CheckpointStep.brlenOpt).fast_spr_radius :=
  C10_evaluate_state_frame cfg0 (constTI (-50) 10) 5 (initSS CheckpointStep.brlenOpt) ()
    ((), ssEvalFinal) (by with_unfolding_all decide)

/-- One model-optimization step: `optimize_params_all` at the given
epsilon. -/
def optStep {σ : Type} (ti : TreeInfo σ) (eps : ℚ) : σ → σ :=
  ti.optimize_params_all eps

/-- The objective value `optimize_model` queries after `i`
model-optimization steps from `s` (index 0 is the initial query). -/
def mSeq {σ : Type} (ti : TreeInfo σ) (eps : ℚ) (s : σ) (i : ℕ) : ℚ :=
  ti.loglh ((optStep ti eps)^[i] s)

lemma optModelGo_char {σ : Type} (ti : TreeInfo σ) (eps : ℚ) (s : σ) :
    ∀ (f j : ℕ) (p : σ × ℚ),
    (optModelGo ti eps f ((optStep ti eps)^[j] s) (mSeq ti eps s j)).1 = some p →
    ∃ k, j < k ∧ k ≤ j + f ∧ p.1 = (optStep ti eps)^[k] s ∧ p.2 = mSeq ti eps s k ∧
      ¬(mSeq ti eps s k - mSeq ti eps s (k - 1) > eps) ∧
      ∀ i, j < i → i < k → mSeq ti eps s i - mSeq ti eps s (i - 1) > eps := by
  intro f
  induction f with
  | zero =>
    intro j p h
    simp [optModelGo] at h
  | succ f ih =>
    intro j p h
    have hs1 : ti.optimize_params_all eps ((optStep ti eps)^[j] s) =
        (optStep ti eps)^[j + 1] s :=
      (Function.iterate_succ_apply' (optStep ti eps) j s).symm
    rw [optModelGo] at h
    dsimp only at h
    rw [hs1] at h
    by_cases hc : ti.loglh ((optStep ti eps)^[j + 1] s) - mSeq ti eps s j > eps
    · rw [if_pos hc] at h
      have h' : (optModelGo ti eps f ((optStep ti eps)^[j + 1] s)
          (mSeq ti eps s (j + 1))).1 = some p := h
      rcases ih (j + 1) p h' with ⟨k, hk1, hk2, hp1, hp2, hstop, hcont⟩
      refine ⟨k, by omega, by omega, hp1, hp2, hstop, ?_⟩
      intro i hji hik
      rcases Nat.lt_or_ge i (j + 2) with hi | hi
      · have hij : i = j + 1 := by omega
        subst hij
        simpa using hc
      · exact hcont i (by omega) hik
    · rw [if_neg hc] at h
      have hp := Option.some.inj h
      refine ⟨j + 1, by omega, by omega, ?_, ?_, ?_, ?_⟩
      · rw [← hp]
      · rw [← hp]
        rfl
      · simpa using hc
      · intro i h1 h2
        omega

lemma optModelGo_complete {σ : Type} (ti : TreeInfo σ) (eps : ℚ) (s : σ) :
    ∀ (f j k : ℕ), j < k → k ≤ j + f →
    (∀ i, j < i → i < k → mSeq ti eps s i - mSeq ti eps s (i - 1) > eps) →
    ¬(mSeq ti eps s k - mSeq ti eps s (k - 1) > eps) →
    (optModelGo ti eps f ((optStep ti eps)^[j] s) (mSeq ti eps s j)).1 =
      some ((optStep ti eps)^[k] s, mSeq ti eps s k) := by
  intro f
  induction f with
  | zero =>
    intro j k h1 h2 _ _
    omega
  | succ f ih =>
    intro j k hjk hkf hcont hstop
    have hs1 : ti.optimize_params_all eps ((optStep ti eps)^[j] s) =
        (optStep ti eps)^[j + 1] s :=
      (Function.iterate_succ_apply' (optStep ti eps) j s).symm
    rw [optModelGo]
    dsimp only
    rw [hs1]
    by_cases hc : ti.loglh ((optStep ti eps)^[j + 1] s) - mSeq ti eps s j > eps
    · rw [if_pos hc]
      have hk2 : j + 1 < k := by
        rcases Nat.eq_or_lt_of_le (Nat.succ_le_of_lt hjk) with he | hl
        · exfalso
          apply hstop
          rw [← he]
          simpa using hc
        · exact hl
      exact ih (j + 1) k hk2 (by omega) (fun i hi1 hi2 => hcont i (by omega) hi2) hstop
    · rw [if_neg hc]
      have hk : k = j + 1 := by
        by_contra hne
        have hlt : j + 1 < k := by omega
        have hc2 := hcont (j + 1) (by omega) hlt
        simp only [Nat.add_sub_cancel] at hc2
        exact hc hc2
      subst hk
      rfl

/-- C4: `optimize_model ti eps` iterates `optimize_params_all` followed
by an objective re-query.  A completed call returns exactly the state
and objective after `k` steps, where `k ≥ 1` is the first index whose
improvement over the previous query is at most epsilon (every earlier
step improved by more than epsilon); conversely, whenever such a `k`
exists within the fuel, the call completes with this value. -/
theorem C4_optimize_model_characterization {σ : Type} (ti : TreeInfo σ) (eps : ℚ)
    (fuel : ℕ) (s : σ) :
    (∀ p, (optimize_model ti eps fuel s).1 = some p →
      ∃ k, 1 ≤ k ∧ k ≤ fuel ∧ p.1 = (optStep ti eps)^[k] s ∧ p.2 = mSeq ti eps s k ∧
        mSeq ti eps s k - mSeq ti eps s (k - 1) ≤ eps ∧
        ∀ i, 1 ≤ i → i < k → mSeq ti eps s i - mSeq ti eps s (i - 1) > eps) ∧
    (∀ k, 1 ≤ k → k ≤ fuel →
      (∀ i, 1 ≤ i → i < k → mSeq ti eps s i - mSeq ti eps s (i - 1) > eps) →
      mSeq ti eps s k - mSeq ti eps s (k - 1) ≤ eps →
      (optimize_model ti eps fuel s).1 = some ((optStep ti eps)^[k] s, mSeq ti eps s k)) := by
  constructor
  · intro p h
    have h0 : (optModelGo ti eps fuel ((optStep ti eps)^[0] s) (mSeq ti eps s 0)).1 =
        some p := by
      simpa only [optimize_model, Function.iterate_zero_apply, mSeq] using h
    rcases optModelGo_char ti eps s fuel 0 p h0 with ⟨k, h1, h2, h3, h4, h5, h6⟩
    exact ⟨k, h1, by omega, h3, h4, not_lt.mp h5, fun i hi1 hi2 => h6 i hi1 hi2⟩
  · intro k h1 h2 hcont hstop
    have hres := optModelGo_complete ti eps s fuel 0 k h1 (by omega)
      (fun i hi1 hi2 => hcont i hi1 hi2) (not_lt.mpr hstop)
    simpa only [optimize_model, Function.iterate_zero_apply, mSeq] using hres

theorem C4_witness :
    ∃ k, 1 ≤ k ∧ k ≤ 1 ∧
      (((), (-50 : ℚ)) : Unit × ℚ).1 = (optStep (constTI (-50) 10) 5)^[k] () ∧
      (((), (-50 : ℚ)) : Unit × ℚ).2 = mSeq (constTI (-50) 10) 5 () k ∧
      mSeq (constTI (-50) 10) 5 () k - mSeq (constTI (-50) 10) 5 () (k - 1) ≤ 5 ∧
      ∀ i, 1 ≤ i → i < k →
        mSeq (constTI (-50) 10) 5 () i - mSeq (constTI (-50) 10) 5 () (i - 1) > 5 :=
  (C4_optimize_model_characterization (constTI (-50) 10) 5 1 ()).1 ((), -50)
    (by with_unfolding_all decide)

@[simp] lemma countForced_nil : countForced [] = 0 := rfl

@[simp] lemma countForced_cons (e : Event) (l : List Event) :
    countForced (e :: l) = countForced l + if e = Event.forcedContinue then 1 else 0 := by
  simp [countForced, List.countP_cons]

@[simp] lemma countForced_append (a b : List Event) :
    countForced (a ++ b) = countForced a + countForced b := by
  simp [countForced, List.countP_append]

/-- When the non-thorough radius step is strictly below the limit, the
step is at least 4 (the `limit ≤ 5` bucket returns the limit itself, so
the guard forces one of the division buckets with `limit ≥ 6`). -/
lemma stepF_ge_four (limit : ℤ) (h : spr_radius_step_adaptive limit false < limit) :
    4 ≤ spr_radius_step_adaptive limit false := by
  unfold spr_radius_step_adaptive at h ⊢
  rw [if_neg Bool.false_ne_true] at h ⊢
  by_cases h1 : limit ≤ 5
  · rw [if_pos h1] at h
    omega
  · rw [if_neg h1] at h ⊢
    by_cases h2 : limit ≤ 10
    · rw [if_pos h2] at h ⊢
      rw [Int.tdiv_eq_ediv (by omega) (by norm_num)] at h ⊢
      omega
    · rw [if_neg h2] at h ⊢
      by_cases h3 : limit ≤ 15
      · rw [if_pos h3] at h ⊢
        rw [Int.tdiv_eq_ediv (by omega) (by norm_num)] at h ⊢
        omega
      · rw [if_neg h3] at h ⊢
        rw [Int.tdiv_eq_ediv (by omega) (by norm_num)] at h ⊢
        omega

/-- An iteration entered with the window maximum strictly above the step
does not fire the forced-continuation branch, and it never shrinks the
window maximum. -/
lemma fastsprA_iter_not_forced {σ : Type} (ti : TreeInfo σ) (lh_eps : ℚ) (easy : Bool)
    (limit step : ℤ) (npar : nni_round_params) (s : σ) (ss : SearchState)
    (hstep : 0 < step) (hgt : step < ss.spr_params.radius_max) :
    countForced (fastsprA_iter ti lh_eps easy limit step npar s ss).events = 0 ∧
    step < (fastsprA_iter ti lh_eps easy limit step npar s ss).state.spr_params.radius_max := by
  unfold fastsprA_iter
  dsimp only
  rw [if_neg (fun hx => absurd hx.2.2.1 (by omega))]
  constructor
  · split_ifs <;> simp
  · split_ifs <;> simp [enlargeWindow] <;> omega

/-- Once the fast window maximum is strictly above the step, the forced
continuation branch never fires for the rest of the loop. -/
lemma fastspr_adaptive_no_forced {σ : Type} (ti : TreeInfo σ) (lh_eps : ℚ) (easy : Bool)
    (limit step : ℤ) (npar : nni_round_params) (hstep : 0 < step) :
    ∀ (f : ℕ) (s : σ) (ss : SearchState), step < ss.spr_params.radius_max →
    countForced (fastspr_adaptive_loop ti lh_eps easy limit step npar f s ss).2 = 0 := by
  intro f
  induction f with
  | zero =>
    intro s ss _
    simp [fastspr_adaptive_loop]
  | succ f ih =>
    intro s ss hgt
    rcases fastsprA_iter_not_forced ti lh_eps easy limit step npar s ss hstep hgt with ⟨h1, h2⟩
    rw [fastspr_adaptive_loop]
    dsimp only
    by_cases ha : (fastsprA_iter ti lh_eps easy limit step npar s ss).again = true
    · rw [if_pos ha]
      dsimp only
      rw [countForced_append, h1, ih _ _ h2]
    · rw [if_neg ha]
      exact h1

/-- The exact shape of an iteration that fires the forced-continuation
branch: the stopping condition failed with normal difficulty, the window
maximum still equals the step, and the step is below the limit. -/
lemma fastsprA_iter_forced {σ : Type} (ti : TreeInfo σ) (lh_eps : ℚ)
    (limit step : ℤ) (npar : nni_round_params) (s : σ) (ss : SearchState)
    (hpos : 0 ≤ step) (hlt : step < limit) (hrm : ss.spr_params.radius_max = step)
    (hcond : ¬((ti.spr_round ss.spr_params s).2 - ss.loglh > lh_eps ∧
      ((ti.spr_round ss.spr_params s).2 - ss.loglh) /
        |(ti.spr_round ss.spr_params s).2| ≥ 1/1000)) :
    fastsprA_iter ti lh_eps false limit step npar s ss =
      { tree := (ti.spr_round ss.spr_params s).1,
        state := enlargeWindow step {ss with
          iteration := ss.iteration + 1
          loglh := (ti.spr_round ss.spr_params s).2},
        events := [Event.persist, Event.paramWrite,
          Event.sprRound ss.spr_params.thorough ss.spr_params.radius_min
            ss.spr_params.radius_max,
          Event.paramWrite, Event.paramWrite, Event.forcedContinue],
        again := true, forced := true } := by
  unfold fastsprA_iter
  dsimp only
  have hn : ¬(ss.spr_params.radius_max > 2 * step) := by omega
  simp only [if_neg hn]
  rw [if_pos ⟨hcond, Bool.false_ne_true, hrm, hlt⟩]
  simp

/-- C6: in the fast-SPR loop of the adaptive schedule, when the
continuation condition fails at an iteration with normal difficulty
(`easy_or_difficult` false), the window maximum still equal to the
initial radius step, and the step strictly below the radius limit,
exactly one additional round is forced: the loop continues once more
from the post-SPR tree with both window ends enlarged by the step, and
the forced branch fires exactly once in the whole remaining run of the
loop. -/
theorem C6_forced_single_extra_round {σ : Type} (ti : TreeInfo σ) (lh_eps : ℚ)
    (radius_limit radius_step : ℤ) (npar : nni_round_params) (f : ℕ) (s : σ)
    (ss : SearchState)
    (hstep : radius_step = spr_radius_step_adaptive radius_limit false)
    (hlt : radius_step < radius_limit)
    (hrm : ss.spr_params.radius_max = radius_step)
    (hcond : ¬((ti.spr_round ss.spr_params s).2 - ss.loglh > lh_eps ∧
      ((ti.spr_round ss.spr_params s).2 - ss.loglh) /
        |(ti.spr_round ss.spr_params s).2| ≥ 1/1000)) :
    ∃ ss2,
      fastspr_adaptive_loop ti lh_eps false radius_limit radius_step npar (f + 1) s ss =
        ((fastspr_adaptive_loop ti lh_eps false radius_limit radius_step npar f
            (ti.spr_round ss.spr_params s).1 ss2).1,
          [Event.persist, Event.paramWrite,
            Event.sprRound ss.spr_params.thorough ss.spr_params.radius_min
              ss.spr_params.radius_max,
            Event.paramWrite, Event.paramWrite, Event.forcedContinue] ++
          (fastspr_adaptive_loop ti lh_eps false radius_limit radius_step npar f
            (ti.spr_round ss.spr_params s).1 ss2).2) ∧
      ss2.spr_params.radius_min = ss.spr_params.radius_min + radius_step ∧
      ss2.spr_params.radius_max = ss.spr_params.radius_max + radius_step ∧
      countForced
        (fastspr_adaptive_loop ti lh_eps false radius_limit radius_step npar (f + 1) s ss).2
        = 1 := by
  have h4 : 4 ≤ radius_step := hstep ▸ stepF_ge_four radius_limit (hstep ▸ hlt)
  have hit := fastsprA_iter_forced ti lh_eps radius_limit radius_step npar s ss
    (by omega) hlt hrm hcond
  refine ⟨enlargeWindow radius_step {ss with
    iteration := ss.iteration + 1
    loglh := (ti.spr_round ss.spr_params s).2}, ?_, ?_, ?_, ?_⟩
  · rw [fastspr_adaptive_loop]
    dsimp only
    rw [hit]
    simp
  · simp [enlargeWindow]
  · simp [enlargeWindow]
  · rw [fastspr_adaptive_loop]
    dsimp only
    rw [hit]
    rw [if_pos rfl]
    dsimp only
    rw [countForced_append]
    have hz : countForced (fastspr_adaptive_loop ti lh_eps false radius_limit radius_step npar f
        (ti.spr_round ss.spr_params s).1
        (enlargeWindow radius_step {ss with
          iteration := ss.iteration + 1
          loglh := (ti.spr_round ss.spr_params s).2})).2 = 0 := by
      apply fastspr_adaptive_no_forced ti lh_eps false radius_limit radius_step npar
        (by omega)
      simp [enlargeWindow]
      omega
    rw [hz]
    simp

/-- A concrete loop-entry state for the C6 scenario. -/
def ssC6 : SearchState :=
  {initSS CheckpointStep.fastSPR with
    loglh := -100
    spr_params := {(initSS CheckpointStep.fastSPR).spr_params with
      radius_min := 1
      radius_max := 4}}

theorem C6_witness :
    ∃ ss2,
      fastspr_adaptive_loop (constTI (-100) 30) (1/10) false 6 4
          {tolerance := 1/10, lh_epsilon := 1/10} (2 + 1) () ssC6 =
        ((fastspr_adaptive_loop (constTI (-100) 30) (1/10) false 6 4
            {tolerance := 1/10, lh_epsilon := 1/10} 2
            ((constTI (-100) 30).spr_round ssC6.spr_params ()).1 ss2).1,
          [Event.persist, Event.paramWrite,
            Event.sprRound ssC6.spr_params.thorough ssC6.spr_params.radius_min
              ssC6.spr_params.radius_max,
            Event.paramWrite, Event.paramWrite, Event.forcedContinue] ++
          (fastspr_adaptive_loop (constTI (-100) 30) (1/10) false 6 4
            {tolerance := 1/10, lh_epsilon := 1/10} 2
            ((constTI (-100) 30).spr_round ssC6.spr_params ()).1 ss2).2) ∧
      ss2.spr_params.radius_min = ssC6.spr_params.radius_min + 4 ∧
      ss2.spr_params.radius_max = ssC6.spr_params.radius_max + 4 ∧
      countForced
        (fastspr_adaptive_loop (constTI (-100) 30) (1/10) false 6 4
          {tolerance := 1/10, lh_epsilon := 1/10} (2 + 1) () ssC6).2 = 1 :=
  C6_forced_single_extra_round (constTI (-100) 30) (1/10) 6 4
    {tolerance := 1/10, lh_epsilon := 1/10} 2 () ssC6
    (by decide) (by decide) (by decide) (by with_unfolding_all decide)

lemma ppmGo_true : ∀ l : List Event, ppmGo l true = true := by
  intro l
  induction l with
  | nil => rfl
  | cons e r ih =>
    unfold ppmGo
    split
    · simpa using ih
    · simpa using ih

lemma ppmGo_cons (e : Event) (r : List Event) (seen : Bool) :
    ppmGo (e :: r) seen =
      if e.isMutatingTI = true then seen && ppmGo r seen
      else ppmGo r (seen || decide (e = Event.persist)) := rfl

lemma ppmGo_append {a b : List Event} :
    ∀ {s : Bool}, ppmGo a s = true → ppmGo b false = true → ppmGo (a ++ b) s = true := by
  induction a with
  | nil =>
    intro s _ hb
    rcases s with _ | _
    · exact hb
    · exact ppmGo_true b
  | cons e a ih =>
    intro s ha hb
    rw [List.cons_append]
    rw [ppmGo_cons] at ha ⊢
    by_cases hm : e.isMutatingTI = true
    · rw [if_pos hm] at ha ⊢
      rw [Bool.and_eq_true] at ha
      obtain ⟨hs, ha2⟩ := ha
      subst hs
      simp only [Bool.true_and]
      exact ih ha2 hb
    · rw [if_neg hm] at ha ⊢
      exact ih ha hb

lemma ppm_head_persist (t : List Event) :
    persistPrecedesMutating (Event.persist :: t) = true := by
  unfold persistPrecedesMutating
  rw [ppmGo_cons]
  rw [if_neg (by decide)]
  have hs : (false || decide (Event.persist = Event.persist)) = true := rfl
  rw [hs]
  exact ppmGo_true t

lemma ppm_nil : persistPrecedesMutating [] = true := rfl

/-- A prefix of parameter writes changes nothing for the
persist-before-mutation check. -/
lemma ppmGo_paramWrite_skip (n : ℕ) (l : List Event) (s : Bool) :
    ppmGo (List.replicate n Event.paramWrite ++ l) s = ppmGo l s := by
  induction n with
  | zero => rfl
  | succ n ih =>
    rw [List.replicate_succ, List.cons_append, ppmGo_cons]
    rw [if_neg (by decide)]
    have hs : (s || decide (Event.paramWrite = Event.persist)) = s := by
      rcases s with _ | _ <;> rfl
    rw [hs]
    exact ih

lemma ppm_of_head (l : List Event)
    (h : l = [] ∨ ∃ t, l = Event.persist :: t) :
    persistPrecedesMutating l = true := by
  rcases h with rfl | ⟨t, rfl⟩
  · rfl
  · exact ppm_head_persist t

lemma stageEvents_append (a b : List TEvent) (st : CheckpointStep) :
    stageEvents (a ++ b) st = stageEvents a st ++ stageEvents b st := by
  simp [stageEvents, List.filterMap_append]

lemma stageEvents_map_none (tr : List Event) (st : CheckpointStep) :
    stageEvents (tr.map (fun e => ((none : Option CheckpointStep), e))) st = [] := by
  induction tr with
  | nil => rfl
  | cons e r ih =>
    simp only [List.map_cons, stageEvents, List.filterMap_cons] at ih ⊢
    simp [ih]

lemma stageEvents_map_some (tr : List Event) (st st' : CheckpointStep) :
    stageEvents (tr.map (fun e => (some st', e))) st = if st' = st then tr else [] := by
  induction tr with
  | nil => simp [stageEvents]
  | cons e r ih =>
    simp only [List.map_cons, stageEvents, List.filterMap_cons] at ih ⊢
    by_cases h : st' = st
    · subst h
      simpa using ih
    · have hne : ((some st' : Option CheckpointStep) = some st) = False := by
        simp [h]
      rw [if_neg h] at ih
      simp only [hne, if_false]
      rw [if_neg h]
      exact ih

/-- The per-stage events of one link satisfy the persist-before-mutation
check, provided the staged body does. -/
lemma runLink_ppm {σ : Type} {resume : CheckpointStep} {l : Link σ} {x : σ × SearchState}
    (hb : ∀ st body, l = Link.staged st body → ∀ y,
      persistPrecedesMutating (body y).2 = true) (st : CheckpointStep) :
    persistPrecedesMutating (stageEvents (runLink resume l x).2 st) = true := by
  rcases l with f | ⟨st', body⟩
  · rw [runLink]
    dsimp only
    rw [stageEvents_map_none]
    rfl
  · rw [runLink]
    rw [runStage]
    by_cases hg : resume.ord ≤ st'.ord
    · rw [if_pos hg]
      dsimp only
      rw [stageEvents_map_some]
      by_cases he : st' = st
      · rw [if_pos he]
        exact hb st' body rfl _
      · rw [if_neg he]
        rfl
    · rw [if_neg hg]
      rfl

/-- In any chain whose staged bodies satisfy the persist-before-mutation
check, every stage's event list satisfies it. -/
lemma runChain_ppm {σ : Type} {resume : CheckpointStep} :
    ∀ {ls : List (Link σ)},
    (∀ st body, Link.staged st body ∈ ls → ∀ y,
      persistPrecedesMutating (body y).2 = true) →
    ∀ (x : σ × SearchState) (st : CheckpointStep),
    persistPrecedesMutating (stageEvents (runChain resume ls x).2 st) = true := by
  intro ls
  induction ls with
  | nil =>
    intro _ x st
    rfl
  | cons l ls ih =>
    intro hb x st
    rw [runChain]
    unfold andThen
    rcases hx : (runLink resume l x).1 with _ | a
    · dsimp only
      exact runLink_ppm (fun st' body' hl => hb st' body' (hl ▸ List.mem_cons_self l ls)) st
    · dsimp only
      rw [stageEvents_append]
      exact ppmGo_append
        (runLink_ppm (fun st' body' hl => hb st' body' (hl ▸ List.mem_cons_self l ls)) st)
        (ih (fun st' body' hl => hb st' body' (List.mem_cons_of_mem l hl)) a st)

lemma autodetect_loop_shape {σ : Type} (ti : TreeInfo σ) (limit step : ℤ) (f : ℕ)
    (s : σ) (ss : SearchState) (best : ℚ) :
    (autodetect_loop ti limit step f s ss best).2 = [] ∨
    ∃ t, (autodetect_loop ti limit step f s ss best).2 = Event.persist :: t := by
  rw [autodetect_loop.eq_def]
  dsimp only
  by_cases h : ss.spr_params.radius_min < limit
  · rw [if_pos h]
    rcases f with _ | f
    · left
      rfl
    · dsimp only
      right
      repeat' split
      all_goals exact ⟨_, rfl⟩
  · rw [if_neg h]
    left
    rfl

lemma fastspr_loop_shape {σ : Type} (ti : TreeInfo σ) (lh_eps : ℚ) (f : ℕ) (s : σ)
    (ss : SearchState) :
    (fastspr_loop ti lh_eps f s ss).2 = [] ∨
    ∃ t, (fastspr_loop ti lh_eps f s ss).2 = Event.persist :: t := by
  rcases f with _ | f
  · left
    rfl
  · rw [fastspr_loop]
    dsimp only
    split
    · right
      exact ⟨_, rfl⟩
    · right
      exact ⟨_, rfl⟩

lemma slowspr_loop_shape {σ : Type} (ti : TreeInfo σ) (lh_eps : ℚ) (limit step : ℤ)
    (f : ℕ) (s : σ) (ss : SearchState) :
    (slowspr_loop ti lh_eps limit step f s ss).2 = [] ∨
    ∃ t, (slowspr_loop ti lh_eps limit step f s ss).2 = Event.persist :: t := by
  rcases f with _ | f
  · left
    rfl
  · rw [slowspr_loop]
    dsimp only
    right
    repeat' split
    all_goals exact ⟨_, rfl⟩

lemma slowspr_adaptive_loop_shape {σ : Type} (ti : TreeInfo σ) (lh_eps : ℚ)
    (limit step : ℤ) (npar : nni_round_params) (f : ℕ) (s : σ) (ss : SearchState) :
    (slowspr_adaptive_loop ti lh_eps limit step npar f s ss).2 = [] ∨
    ∃ t, (slowspr_adaptive_loop ti lh_eps limit step npar f s ss).2 =
      Event.persist :: t := by
  rcases f with _ | f
  · left
    rfl
  · rw [slowspr_adaptive_loop]
    dsimp only
    right
    repeat' split
    all_goals exact ⟨_, rfl⟩

lemma fastsprA_iter_events_head {σ : Type} (ti : TreeInfo σ) (lh_eps : ℚ) (easy : Bool)
    (limit step : ℤ) (npar : nni_round_params) (s : σ) (ss : SearchState) :
    ∃ t, (fastsprA_iter ti lh_eps easy limit step npar s ss).events =
      Event.persist :: t := by
  rw [fastsprA_iter]
  dsimp only
  repeat' split
  all_goals exact ⟨_, rfl⟩

lemma fastspr_adaptive_loop_shape {σ : Type} (ti : TreeInfo σ) (lh_eps : ℚ) (easy : Bool)
    (limit step : ℤ) (npar : nni_round_params) (f : ℕ) (s : σ) (ss : SearchState) :
    (fastspr_adaptive_loop ti lh_eps easy limit step npar f s ss).2 = [] ∨
    ∃ t, (fastspr_adaptive_loop ti lh_eps easy limit step npar f s ss).2 =
      Event.persist :: t := by
  rcases f with _ | f
  · left
    rfl
  · rw [fastspr_adaptive_loop]
    dsimp only
    rcases fastsprA_iter_events_head ti lh_eps easy limit step npar s ss with ⟨t, ht⟩
    split
    · right
      rw [ht]
      exact ⟨_, rfl⟩
    · right
      rw [ht]
      exact ⟨_, rfl⟩

lemma ppm_modOptBody {σ : Type} (ti : TreeInfo σ) (eps : ℚ) (fuel : ℕ)
    (upd : ℚ → SearchState → SearchState) (nw : ℕ) (y : σ × SearchState) :
    persistPrecedesMutating (modOptBody ti eps fuel upd nw y).2 = true := by
  rw [modOptBody]
  dsimp only
  split
  · exact ppm_head_persist _
  · exact ppm_head_persist _

lemma ppm_radiusDetectBody {σ : Type} (ti : TreeInfo σ) (limit step : ℤ) (fuel : ℕ)
    (y : σ × SearchState) :
    persistPrecedesMutating (radiusDetectBody ti limit step fuel y).2 = true := by
  rw [radiusDetectBody]
  dsimp only
  by_cases h0 : y.2.iteration = 0
  · simp only [if_pos h0]
    unfold persistPrecedesMutating
    rw [ppmGo_paramWrite_skip]
    exact ppm_of_head _ (autodetect_loop_shape ti limit step fuel _ _ _)
  · simp only [if_neg h0]
    rw [List.nil_append]
    exact ppm_of_head _ (autodetect_loop_shape ti limit step fuel _ _ _)

lemma ppm_adFastSPRBody {σ : Type} (ti : TreeInfo σ) (lh_eps : ℚ) (easy : Bool)
    (limit step : ℤ) (fuel : ℕ) (y : σ × SearchState) :
    persistPrecedesMutating (adFastSPRBody ti lh_eps easy limit step fuel y).2 = true := by
  rw [adFastSPRBody]
  dsimp only
  by_cases h0 : y.2.iteration = 0
  · simp only [if_pos h0]
    unfold persistPrecedesMutating
    rw [ppmGo_paramWrite_skip]
    exact ppm_of_head _ (fastspr_adaptive_loop_shape ti lh_eps easy limit step _ fuel _ _)
  · simp only [if_neg h0]
    rw [List.nil_append]
    exact ppm_of_head _ (fastspr_adaptive_loop_shape ti lh_eps easy limit step _ fuel _ _)

lemma ppm_adRadiusBody {σ : Type} (ti : TreeInfo σ) (easy : Bool) (y : σ × SearchState) :
    persistPrecedesMutating (adRadiusBody ti easy y).2 = true := by
  rw [adRadiusBody]
  dsimp only
  split
  · exact ppm_head_persist _
  · exact ppm_head_persist _

lemma ppm_adModOpt2Body {σ : Type} (ti : TreeInfo σ) (easy : Bool) (fuel : ℕ)
    (y : σ × SearchState) :
    persistPrecedesMutating (adModOpt2Body ti easy fuel y).2 = true := by
  rw [adModOpt2Body]
  split
  · exact ppm_modOptBody ti 10 fuel _ 0 y
  · exact ppm_head_persist _

/-- C2 (amended): in every schedule, within every executed stage, every
mutating `TreeInfo` operation is preceded by a checkpoint persist inside
that same stage.  (The original claim — persist as the literal first
action of the stage — fails in `optimize_topology`'s radiusDetectOrNNI
stage and `optimize_topology_adaptive`'s fastSPR stage, where the
`iteration == 0` initialization of the search parameters precedes the
loop's first persist; see the counterexample.) -/
theorem C2_persist_before_mutation {σ : Type} (opt : Optimizer) (ti : TreeInfo σ)
    (fuel : ℕ) (ss0 : SearchState) (s0 : σ) (difficulty : ℚ) (st : CheckpointStep) :
    persistPrecedesMutating
      (stageEvents (optimize_topology opt ti fuel ss0 s0).2 st) = true ∧
    persistPrecedesMutating
      (stageEvents (optimize_topology_adaptive opt ti fuel ss0 s0 difficulty).2 st) = true ∧
    persistPrecedesMutating
      (stageEvents (evaluate opt ti fuel ss0 s0).2 st) = true := by
  refine ⟨?_, ?_, ?_⟩
  · simp only [optimize_topology]
    apply runChain_ppm
    intro st' body' hmem y
    by_cases hc : 0 < opt.spr_radius
    · rw [if_pos hc] at hmem
      simp only [List.mem_cons, List.not_mem_nil, or_false] at hmem
      rcases hmem with h|h|h|h|h|h|h|h|h|h
      · cases h
      · injection h with h1 h2
        subst h2
        simp only [brlenOptBody]
        exact ppm_head_persist _
      · injection h with h1 h2
        subst h2
        exact ppm_modOptBody ti 10 fuel _ 1 y
      · cases h
      · injection h with h1 h2
        subst h2
        exact ppm_modOptBody ti 3 fuel _ 7 y
      · injection h with h1 h2
        subst h2
        exact ppm_of_head _ (fastspr_loop_shape ti opt.lh_epsilon fuel y.1 y.2)
      · injection h with h1 h2
        subst h2
        exact ppm_modOptBody ti 1 fuel _ 4 y
      · injection h with h1 h2
        subst h2
        exact ppm_of_head _ (slowspr_loop_shape ti opt.lh_epsilon _ 5 fuel y.1 y.2)
      · injection h with h1 h2
        subst h2
        exact ppm_modOptBody ti (1/10) fuel _ 0 y
      · injection h with h1 h2
        subst h2
        simp only [finishBody]
        exact ppm_head_persist _
    · rw [if_neg hc] at hmem
      simp only [List.mem_cons, List.not_mem_nil, or_false] at hmem
      rcases hmem with h|h|h|h|h|h|h|h|h|h
      · cases h
      · injection h with h1 h2
        subst h2
        simp only [brlenOptBody]
        exact ppm_head_persist _
      · injection h with h1 h2
        subst h2
        exact ppm_modOptBody ti 10 fuel _ 1 y
      · injection h with h1 h2
        subst h2
        exact ppm_radiusDetectBody ti _ 5 fuel y
      · injection h with h1 h2
        subst h2
        exact ppm_modOptBody ti 3 fuel _ 7 y
      · injection h with h1 h2
        subst h2
        exact ppm_of_head _ (fastspr_loop_shape ti opt.lh_epsilon fuel y.1 y.2)
      · injection h with h1 h2
        subst h2
        exact ppm_modOptBody ti 1 fuel _ 4 y
      · injection h with h1 h2
        subst h2
        exact ppm_of_head _ (slowspr_loop_shape ti opt.lh_epsilon _ 5 fuel y.1 y.2)
      · injection h with h1 h2
        subst h2
        exact ppm_modOptBody ti (1/10) fuel _ 0 y
      · injection h with h1 h2
        subst h2
        simp only [finishBody]
        exact ppm_head_persist _
  · simp only [optimize_topology_adaptive]
    apply runChain_ppm
    intro st' body' hmem y
    simp only [List.mem_cons, List.not_mem_nil, or_false] at hmem
    rcases hmem with h|h|h|h|h|h|h|h|h|h
    · cases h
    · injection h with h1 h2
      subst h2
      simp only [brlenOptBody]
      exact ppm_head_persist _
    · injection h with h1 h2
      subst h2
      exact ppm_modOptBody ti 10 fuel _ 1 y
    · injection h with h1 h2
      subst h2
      exact ppm_adRadiusBody ti _ y
    · injection h with h1 h2
      subst h2
      exact ppm_adModOpt2Body ti _ fuel y
    · injection h with h1 h2
      subst h2
      exact ppm_adFastSPRBody ti opt.lh_epsilon _ _ _ fuel y
    · injection h with h1 h2
      subst h2
      exact ppm_modOptBody ti 3 fuel _ 7 y
    · injection h with h1 h2
      subst h2
      exact ppm_of_head _ (slowspr_adaptive_loop_shape ti opt.lh_epsilon _ _ _ fuel y.1 y.2)
    · injection h with h1 h2
      subst h2
      exact ppm_modOptBody ti (1/10) fuel _ 0 y
    · injection h with h1 h2
      subst h2
      simp only [finishBody]
      exact ppm_head_persist _
  · simp only [evaluate]
    apply runChain_ppm
    intro st' body' hmem y
    simp only [List.mem_cons, List.not_mem_nil, or_false] at hmem
    rcases hmem with h|h|h|h
    · cases h
    · injection h with h1 h2
      subst h2
      simp only [brlenOptBody]
      exact ppm_head_persist _
    · injection h with h1 h2
      subst h2
      exact ppm_modOptBody ti opt.lh_epsilon fuel _ 0 y
    · injection h with h1 h2
      subst h2
      simp only [finishBody]
      exact ppm_head_persist _

/-- The claim's stub hypothesis: `spr_round`, `nni_round` and
`optimize_branches` never improve the objective — each returns a value
at most the current objective, and the returned value is the new tree's
objective (the collaborator contract). -/
def NeverImprovesSNB {σ : Type} (ti : TreeInfo σ) : Prop :=
  (∀ p s, (ti.spr_round p s).2 ≤ ti.loglh s ∧
    ti.loglh (ti.spr_round p s).1 = (ti.spr_round p s).2) ∧
  (∀ p s, (ti.nni_round p s).2 ≤ ti.loglh s ∧
    ti.loglh (ti.nni_round p s).1 = (ti.nni_round p s).2) ∧
  (∀ e n s, (ti.optimize_branches e n s).2 ≤ ti.loglh s ∧
    ti.loglh (ti.optimize_branches e n s).1 = (ti.optimize_branches e n s).2)

/-- `optimize_params_all` never improves the objective. -/
def NeverImprovesParams {σ : Type} (ti : TreeInfo σ) : Prop :=
  ∀ e s, ti.loglh (ti.optimize_params_all e s) ≤ ti.loglh s

lemma badTI_nonimproving_snb : NeverImprovesSNB badTI := by
  refine ⟨?_, ?_, ?_⟩
  · intro p s
    exact ⟨le_refl _, rfl⟩
  · intro p s
    exact ⟨le_refl _, rfl⟩
  · intro e n s
    exact ⟨le_refl _, rfl⟩

/-- With `badTI`'s always-improving model optimization, the
`optimize_model` loop never converges: it consumes every fuel. -/
lemma badTI_optModel_diverges : ∀ (f : ℕ) (n : ℤ),
    (optModelGo badTI 10 f n ((n : ℚ))).1 = none := by
  intro f
  induction f with
  | zero =>
    intro n
    rfl
  | succ f ih =>
    intro n
    rw [optModelGo]
    dsimp only
    have hcond : badTI.loglh (badTI.optimize_params_all 10 n) - (n : ℚ) > 10 := by
      show ((n + 100 : ℤ) : ℚ) - (n : ℚ) > 10
      push_cast
      linarith
    rw [if_pos hcond]
    exact ih (n + 100)

lemma badTI_run_none (fuel : ℕ) :
    (optimize_topology cfg0 badTI fuel (initSS CheckpointStep.brlenOpt) 0).1 = none := by
  have hm : (optimize_model badTI 10 fuel
      ((badTI.optimize_branches 10 1 0).1)).1 = none := by
    rw [optimize_model]
    exact badTI_optModel_diverges fuel 0
  have g0 : (initSS CheckpointStep.brlenOpt).step.ord ≤ CheckpointStep.brlenOpt.ord := by
    decide
  have g1 : (initSS CheckpointStep.brlenOpt).step.ord ≤ CheckpointStep.modOpt1.ord := by
    decide
  simp only [optimize_topology, runChain, runLink, runStage, andThen, fixedPre,
    brlenOptBody, modOptBody, if_pos g0, if_pos g1, hm]

/-- C5 counterexample: a stub tree whose SPR, NNI and branch-length
operations never improve the objective, but whose (unconstrained by the
claim) model-parameter optimization always improves it by 100: the
modOpt1 stage's `optimize_model` loop then never converges, so
`optimize_topology` exhausts every fuel and never reaches
CheckpointStep::finish. -/
theorem C5_counterexample :
    NeverImprovesSNB badTI ∧
    ¬ ∃ (fuel : ℕ) (r : ℤ × SearchState),
      (optimize_topology cfg0 badTI fuel (initSS CheckpointStep.brlenOpt) 0).1 = some r ∧
      r.2.step = CheckpointStep.finish := by
  refine ⟨badTI_nonimproving_snb, ?_⟩
  rintro ⟨fuel, r, h, _⟩
  rw [badTI_run_none fuel] at h
  cases h

/-- The coherence invariant: the recorded objective equals the tree's
objective. -/
def InvL {σ : Type} (ti : TreeInfo σ) (y : σ × SearchState) : Prop :=
  y.2.loglh = ti.loglh y.1

/-- Run invariant for the fixed schedule under a never-improving oracle:
objective coherence, plus the fact that the window maximum and the best
fast radius only ever hold one of the values the schedule can assign
them. -/
def InvC {σ : Type} (ti : TreeInfo σ) (ss0 : SearchState) (opt : Optimizer)
    (y : σ × SearchState) : Prop :=
  y.2.loglh = ti.loglh y.1 ∧
  (y.2.spr_params.radius_max = ss0.spr_params.radius_max ∨
   y.2.spr_params.radius_max = ss0.fast_spr_radius ∨
   y.2.spr_params.radius_max = opt.spr_radius ∨
   y.2.spr_params.radius_max = 5) ∧
  (y.2.fast_spr_radius = ss0.fast_spr_radius ∨
   y.2.fast_spr_radius = opt.spr_radius ∨
   y.2.fast_spr_radius = 5)

/-- Under a never-improving model optimization and a non-negative
epsilon, `optimize_model` converges after its first iteration. -/
lemma optimize_model_nonimproving {σ : Type} (ti : TreeInfo σ) (eps : ℚ)
    (hp : NeverImprovesParams ti) (heps : 0 ≤ eps) (f : ℕ) (s : σ) :
    (optimize_model ti eps (f + 1) s).1 =
      some (ti.optimize_params_all eps s, ti.loglh (ti.optimize_params_all eps s)) := by
  rw [optimize_model, optModelGo]
  dsimp only
  rw [if_neg (not_lt.mpr (by linarith [hp eps s]))]

lemma modOptBody_eq {σ : Type} (ti : TreeInfo σ) (eps : ℚ) (f : ℕ)
    (upd : ℚ → SearchState → SearchState) (nw : ℕ) (y : σ × SearchState)
    (hp : NeverImprovesParams ti) (heps : 0 ≤ eps) :
    (modOptBody ti eps (f + 1) upd nw y).1 =
      some (ti.optimize_params_all eps y.1,
        upd (ti.loglh (ti.optimize_params_all eps y.1))
          {y.2 with loglh := ti.loglh (ti.optimize_params_all eps y.1)}) := by
  rw [modOptBody]
  dsimp only
  rw [optimize_model_nonimproving ti eps hp heps f y.1]

/-- Under a never-improving oracle the autodetection loop breaks after
its first round (or never enters), leaving the SPR parameters' radii and
the best fast radius as they were at entry. -/
lemma autodetect_loop_total {σ : Type} (ti : TreeInfo σ) (hsnb : NeverImprovesSNB ti)
    (limit step : ℤ) (f : ℕ) (s : σ) (ss : SearchState) (hinv : ss.loglh = ti.loglh s) :
    ∃ z, (autodetect_loop ti limit step (f + 1) s ss ss.loglh).1 = some z ∧
      z.2.loglh = ti.loglh z.1 ∧ z.2.spr_params = ss.spr_params ∧
      z.2.fast_spr_radius = ss.fast_spr_radius := by
  rw [autodetect_loop.eq_def]
  dsimp only
  split
  · have hni := (hsnb.1 ss.spr_params s).1
    have hco := (hsnb.1 ss.spr_params s).2
    rw [if_neg (not_lt.mpr (by rw [hinv]; linarith))]
    exact ⟨_, rfl, hco.symm, rfl, rfl⟩
  · exact ⟨_, rfl, hinv, rfl, rfl⟩

lemma radiusDetectBody_total {σ : Type} (ti : TreeInfo σ) (hsnb : NeverImprovesSNB ti)
    (limit step : ℤ) (f : ℕ) (y : σ × SearchState) (hy : y.2.loglh = ti.loglh y.1) :
    ∃ z, (radiusDetectBody ti limit step (f + 1) y).1 = some z ∧
      z.2.loglh = ti.loglh z.1 ∧
      (z.2.spr_params.radius_max = 5 ∨
        z.2.spr_params.radius_max = y.2.spr_params.radius_max) ∧
      (z.2.fast_spr_radius = 5 ∨ z.2.fast_spr_radius = y.2.fast_spr_radius) := by
  rw [radiusDetectBody]
  dsimp only
  by_cases h0 : y.2.iteration = 0
  · simp only [if_pos h0]
    obtain ⟨z, hz, hzl, hzp, hzf⟩ := autodetect_loop_total ti hsnb limit step f y.1
      {y.2 with
        spr_params := {y.2.spr_params with
          thorough := false
          radius_min := 1
          radius_max := 5
          ntopol_keep := 0
          subtree_cutoff := 0}
        fast_spr_radius := 5} hy
    refine ⟨z, hz, hzl, Or.inl (by rw [hzp]), Or.inl (by rw [hzf])⟩
  · simp only [if_neg h0]
    obtain ⟨z, hz, hzl, hzp, hzf⟩ := autodetect_loop_total ti hsnb limit step f y.1 y.2 hy
    refine ⟨z, hz, hzl, Or.inr (by rw [hzp]), Or.inr (by rw [hzf])⟩

/-- Under a never-improving oracle the fast-SPR loop of the fixed
schedule exits after its first round, leaving the radii untouched. -/
lemma fastspr_loop_total {σ : Type} (ti : TreeInfo σ) (hsnb : NeverImprovesSNB ti)
    (eps : ℚ) (heps : 0 ≤ eps) (f : ℕ) (s : σ) (ss : SearchState)
    (hinv : ss.loglh = ti.loglh s) :
    ∃ z, (fastspr_loop ti eps (f + 1) s ss).1 = some z ∧
      z.2.loglh = ti.loglh z.1 ∧ z.2.spr_params = ss.spr_params ∧
      z.2.fast_spr_radius = ss.fast_spr_radius := by
  rw [fastspr_loop]
  dsimp only
  have h1 := hsnb.1 ss.spr_params s
  have h2 := hsnb.2.2 eps 1 (ti.spr_round ss.spr_params s).1
  rw [if_neg (not_lt.mpr (by rw [hinv]; linarith [h1.1, h1.2, h2.1, h2.2]))]
  exact ⟨_, rfl, h2.2.symm, rfl, rfl⟩

/-- Under a never-improving oracle the slow-SPR loop of the fixed
schedule terminates once the fuel covers the remaining growth of the
window (the window slides up by the step each round and the loop stops
when its minimum reaches the limit). -/
lemma slowspr_loop_total {σ : Type} (ti : TreeInfo σ) (hsnb : NeverImprovesSNB ti)
    (eps : ℚ) (heps : 0 ≤ eps) (limit : ℤ) :
    ∀ (f : ℕ) (s : σ) (ss : SearchState), ss.loglh = ti.loglh s →
    limit ≤ 1 + ss.spr_params.radius_max + 5 * (f : ℤ) →
    ∃ z, (slowspr_loop ti eps limit 5 (f + 1) s ss).1 = some z ∧
      z.2.loglh = ti.loglh z.1 := by
  intro f
  induction f with
  | zero =>
    intro s ss hinv hbound
    rw [slowspr_loop]
    dsimp only
    have h1 := hsnb.1 ss.spr_params s
    have h2 := hsnb.2.2 eps 1 (ti.spr_round ss.spr_params s).1
    have himpr : ¬((ti.optimize_branches eps 1 (ti.spr_round ss.spr_params s).1).2 -
        ss.loglh > eps) := by
      rw [hinv]
      exact not_lt.mpr (by linarith [h1.1, h1.2, h2.1])
    simp only [if_neg himpr]
    rw [if_neg (by
      intro hx
      have hx2 := hx.2
      omega)]
    exact ⟨_, rfl, h2.2.symm⟩
  | succ f ih =>
    intro s ss hinv hbound
    rw [slowspr_loop]
    dsimp only
    have h1 := hsnb.1 ss.spr_params s
    have h2 := hsnb.2.2 eps 1 (ti.spr_round ss.spr_params s).1
    have himpr : ¬((ti.optimize_branches eps 1 (ti.spr_round ss.spr_params s).1).2 -
        ss.loglh > eps) := by
      rw [hinv]
      exact not_lt.mpr (by linarith [h1.1, h1.2, h2.1])
    simp only [if_neg himpr]
    split
    · exact ih _ _ h2.2.symm (by
        dsimp only
        push_cast at hbound
        omega)
    · exact ⟨_, rfl, h2.2.symm⟩

lemma andThen_some {α β : Type} {x : Option α × List TEvent}
    {f : α → Option β × List TEvent} {a : α} (hx : x.1 = some a) :
    (andThen x f).1 = (f a).1 := by
  unfold andThen
  rw [hx]

/-- Every stage ordinal is at most the finish ordinal, so the finish
stage always executes. -/
lemma ord_le_finish (st : CheckpointStep) : st.ord ≤ CheckpointStep.finish.ord := by
  cases st <;> decide

/-- Lift a total, invariant-preserving stage body through the `do_step`
gate: a skipped stage is the identity. -/
lemma runLink_staged_of_body {σ : Type} (resume st : CheckpointStep)
    (body : σ × SearchState → Option (σ × SearchState) × List Event)
    (P Q : σ × SearchState → Prop)
    (hb : ∀ y, P y → ∃ z, (body y).1 = some z ∧ Q z)
    (hid : ∀ y, P y → Q y)
    (hP : ∀ y, P y → P (y.1, {y.2 with step := st}))
    (y : σ × SearchState) (hy : P y) :
    ∃ z, (runLink resume (Link.staged st body) y).1 = some z ∧ Q z := by
  rw [runLink, runStage]
  split
  · obtain ⟨z, hz, hq⟩ := hb (y.1, {y.2 with step := st}) (hP y hy)
    exact ⟨z, hz, hq⟩
  · exact ⟨y, rfl, hid y hy⟩

/-- C5 (amended): for every tree oracle whose `spr_round`, `nni_round`,
`optimize_branches` *and* `optimize_params_all` never improve the
objective, and a non-negative configured epsilon, `optimize_topology`
terminates — some fuel completes the run — and the final search state's
cursor is CheckpointStep::finish.  (The claim as stated, which leaves
`optimize_params_all` unconstrained, is refuted by the counterexample.) -/
theorem C5_amended_nonimproving_terminates {σ : Type} (opt : Optimizer) (ti : TreeInfo σ)
    (ss0 : SearchState) (s0 : σ)
    (hsnb : NeverImprovesSNB ti) (hp : NeverImprovesParams ti)
    (heps : 0 ≤ opt.lh_epsilon) :
    ∃ (fuel : ℕ) (r : σ × SearchState),
      (optimize_topology opt ti fuel ss0 s0).1 = some r ∧
      r.2.step = CheckpointStep.finish := by
  set N : ℕ := (min 22 ((ti.tip_count : ℤ) - 3) - ss0.spr_params.radius_max).toNat +
    (min 22 ((ti.tip_count : ℤ) - 3) - ss0.fast_spr_radius).toNat +
    (min 22 ((ti.tip_count : ℤ) - 3) - opt.spr_radius).toNat + 25 with hNdef
  have hL22 : min 22 ((ti.tip_count : ℤ) - 3) ≤ 22 := min_le_left _ _
  refine ⟨N + 1, ?_⟩
  have hPstep : ∀ (st : CheckpointStep) (y : σ × SearchState), InvC ti ss0 opt y →
      InvC ti ss0 opt (y.1, {y.2 with step := st}) := fun _ _ hy => hy
  have hbrlen : ∀ y, InvC ti ss0 opt y →
      ∃ z, (brlenOptBody ti y).1 = some z ∧ InvC ti ss0 opt z := by
    intro y hy
    exact ⟨_, rfl, (hsnb.2.2 10 1 y.1).2.symm, hy.2.1, hy.2.2⟩
  have hmod1 : ∀ y, InvC ti ss0 opt y →
      ∃ z, (modOptBody ti 10 (N + 1) (fun _ ss => {ss with iteration := 0}) 1 y).1 =
        some z ∧ InvC ti ss0 opt z := by
    intro y hy
    rw [modOptBody_eq ti 10 N _ 1 y hp (by norm_num)]
    exact ⟨_, rfl, rfl, hy.2.1, hy.2.2⟩
  have hmod2 : ∀ y, InvC ti ss0 opt y →
      ∃ z, (modOptBody ti 3 (N + 1) (fun v ss =>
        {ss with
          iteration := 0
          spr_params := ({ss.spr_params with
            thorough := false
            radius_min := 1
            radius_max := ss.fast_spr_radius
            ntopol_keep := 20
            subtree_cutoff := opt.spr_cutoff}).reset_cutoff_info v}) 7 y).1 =
        some z ∧ InvC ti ss0 opt z := by
    intro y hy
    rw [modOptBody_eq ti 3 N _ 7 y hp (by norm_num)]
    refine ⟨_, rfl, rfl, ?_, hy.2.2⟩
    rcases hy.2.2 with h | h | h
    · exact Or.inr (Or.inl h)
    · exact Or.inr (Or.inr (Or.inl h))
    · exact Or.inr (Or.inr (Or.inr h))
  have hfast : ∀ y, InvC ti ss0 opt y →
      ∃ z, ((fun y : σ × SearchState =>
        fastspr_loop ti opt.lh_epsilon (N + 1) y.1 y.2) y).1 = some z ∧
        InvC ti ss0 opt z := by
    intro y hy
    obtain ⟨z, hz, hzl, hzp, hzf⟩ :=
      fastspr_loop_total ti hsnb opt.lh_epsilon heps N y.1 y.2 hy.1
    refine ⟨z, hz, hzl, ?_, ?_⟩
    · rw [hzp]
      exact hy.2.1
    · rw [hzf]
      exact hy.2.2
  have hmod3 : ∀ y, InvC ti ss0 opt y →
      ∃ z, (modOptBody ti 1 (N + 1) (fun _ ss =>
        {ss with
          iteration := 0
          spr_params := {ss.spr_params with
            thorough := true
            radius_min := 1
            radius_max := 5}}) 4 y).1 = some z ∧
        (z.2.loglh = ti.loglh z.1 ∧
          (z.2.spr_params.radius_max = ss0.spr_params.radius_max ∨
           z.2.spr_params.radius_max = ss0.fast_spr_radius ∨
           z.2.spr_params.radius_max = opt.spr_radius ∨
           z.2.spr_params.radius_max = 5)) := by
    intro y hy
    rw [modOptBody_eq ti 1 N _ 4 y hp (by norm_num)]
    exact ⟨_, rfl, rfl, Or.inr (Or.inr (Or.inr rfl))⟩
  have hslow : ∀ y, (y.2.loglh = ti.loglh y.1 ∧
        (y.2.spr_params.radius_max = ss0.spr_params.radius_max ∨
         y.2.spr_params.radius_max = ss0.fast_spr_radius ∨
         y.2.spr_params.radius_max = opt.spr_radius ∨
         y.2.spr_params.radius_max = 5)) →
      ∃ z, ((fun y : σ × SearchState =>
        slowspr_loop ti opt.lh_epsilon (min 22 ((ti.tip_count : ℤ) - 3)) 5 (N + 1)
          y.1 y.2) y).1 = some z ∧ InvL ti z := by
    intro y hy
    apply slowspr_loop_total ti hsnb opt.lh_epsilon heps _ N y.1 y.2 hy.1
    have t1 := Int.self_le_toNat (min 22 ((ti.tip_count : ℤ) - 3) - ss0.spr_params.radius_max)
    have t2 := Int.self_le_toNat (min 22 ((ti.tip_count : ℤ) - 3) - ss0.fast_spr_radius)
    have t3 := Int.self_le_toNat (min 22 ((ti.tip_count : ℤ) - 3) - opt.spr_radius)
    rcases hy.2 with h | h | h | h <;> rw [h] <;> omega
  have hmod4 : ∀ y, InvL ti y →
      ∃ z, (modOptBody ti (1/10) (N + 1) (fun _ ss => ss) 0 y).1 = some z ∧
        InvL ti z := by
    intro y hy
    rw [modOptBody_eq ti (1/10) N _ 0 y hp (by norm_num)]
    exact ⟨_, rfl, rfl⟩
  have hlink3 : ∀ y, InvC ti ss0 opt y →
      ∃ z, (runLink ss0.step (if 0 < opt.spr_radius then
          Link.plain (fun y => (some (y.1, {y.2 with fast_spr_radius := opt.spr_radius}),
            [Event.paramWrite]))
        else
          Link.staged CheckpointStep.radiusDetectOrNNI
            (radiusDetectBody ti (min 22 ((ti.tip_count : ℤ) - 3)) 5 (N + 1))) y).1 =
        some z ∧ InvC ti ss0 opt z := by
    intro y hy
    by_cases hc : 0 < opt.spr_radius
    · rw [if_pos hc, runLink]
      dsimp only
      exact ⟨_, rfl, hy.1, hy.2.1, Or.inr (Or.inl rfl)⟩
    · rw [if_neg hc]
      refine runLink_staged_of_body ss0.step CheckpointStep.radiusDetectOrNNI _
        (InvC ti ss0 opt) (InvC ti ss0 opt) ?_ (fun _ a => a) (hPstep _) y hy
      intro y' hy'
      obtain ⟨z, hz, hzl, hzp, hzf⟩ :=
        radiusDetectBody_total ti hsnb (min 22 ((ti.tip_count : ℤ) - 3)) 5 N y' hy'.1
      refine ⟨z, hz, hzl, ?_, ?_⟩
      · rcases hzp with h | h
        · exact Or.inr (Or.inr (Or.inr h))
        · rw [h]
          exact hy'.2.1
      · rcases hzf with h | h
        · exact Or.inr (Or.inr h)
        · rw [h]
          exact hy'.2.2
  obtain ⟨x1, hx1, hc1⟩ : ∃ z,
      (runLink ss0.step (Link.plain (fixedPre opt ti)) (s0, ss0)).1 = some z ∧
      InvC ti ss0 opt z := by
    rw [runLink]
    dsimp only
    exact ⟨_, rfl, rfl, Or.inl rfl, Or.inl rfl⟩
  obtain ⟨x2, hx2, hc2⟩ := runLink_staged_of_body ss0.step CheckpointStep.brlenOpt
    (brlenOptBody ti) (InvC ti ss0 opt) (InvC ti ss0 opt) hbrlen (fun _ a => a)
    (hPstep _) x1 hc1
  obtain ⟨x3, hx3, hc3⟩ := runLink_staged_of_body ss0.step CheckpointStep.modOpt1
    (modOptBody ti 10 (N + 1) (fun _ ss => {ss with iteration := 0}) 1)
    (InvC ti ss0 opt) (InvC ti ss0 opt) hmod1 (fun _ a => a) (hPstep _) x2 hc2
  obtain ⟨x4, hx4, hc4⟩ := hlink3 x3 hc3
  obtain ⟨x5, hx5, hc5⟩ := runLink_staged_of_body ss0.step CheckpointStep.modOpt2
    (modOptBody ti 3 (N + 1) (fun v ss =>
      {ss with
        iteration := 0
        spr_params := ({ss.spr_params with
          thorough := false
          radius_min := 1
          radius_max := ss.fast_spr_radius
          ntopol_keep := 20
          subtree_cutoff := opt.spr_cutoff}).reset_cutoff_info v}) 7)
    (InvC ti ss0 opt) (InvC ti ss0 opt) hmod2 (fun _ a => a) (hPstep _) x4 hc4
  obtain ⟨x6, hx6, hc6⟩ := runLink_staged_of_body ss0.step CheckpointStep.fastSPR
    (fun y : σ × SearchState => fastspr_loop ti opt.lh_epsilon (N + 1) y.1 y.2)
    (InvC ti ss0 opt) (InvC ti ss0 opt) hfast (fun _ a => a) (hPstep _) x5 hc5
  obtain ⟨x7, hx7, hc7⟩ := runLink_staged_of_body ss0.step CheckpointStep.modOpt3
    (modOptBody ti 1 (N + 1) (fun _ ss =>
      {ss with
        iteration := 0
        spr_params := {ss.spr_params with
          thorough := true
          radius_min := 1
          radius_max := 5}}) 4)
    (InvC ti ss0 opt)
    (fun z => z.2.loglh = ti.loglh z.1 ∧
      (z.2.spr_params.radius_max = ss0.spr_params.radius_max ∨
       z.2.spr_params.radius_max = ss0.fast_spr_radius ∨
       z.2.spr_params.radius_max = opt.spr_radius ∨
       z.2.spr_params.radius_max = 5))
    hmod3 (fun _ a => ⟨a.1, a.2.1⟩) (hPstep _) x6 hc6
  obtain ⟨x8, hx8, hc8⟩ := runLink_staged_of_body ss0.step CheckpointStep.slowSPR
    (fun y : σ × SearchState =>
      slowspr_loop ti opt.lh_epsilon (min 22 ((ti.tip_count : ℤ) - 3)) 5 (N + 1) y.1 y.2)
    (fun z => z.2.loglh = ti.loglh z.1 ∧
      (z.2.spr_params.radius_max = ss0.spr_params.radius_max ∨
       z.2.spr_params.radius_max = ss0.fast_spr_radius ∨
       z.2.spr_params.radius_max = opt.spr_radius ∨
       z.2.spr_params.radius_max = 5))
    (InvL ti) hslow (fun _ a => a.1) (fun _ a => a) x7 hc7
  obtain ⟨x9, hx9, hc9⟩ := runLink_staged_of_body ss0.step CheckpointStep.modOpt4
    (modOptBody ti (1/10) (N + 1) (fun _ ss => ss) 0)
    (InvL ti) (InvL ti) hmod4 (fun _ a => a) (fun _ a => a) x8 hc8
  obtain ⟨x10, hx10, hstep10⟩ : ∃ z,
      (runLink ss0.step (Link.staged CheckpointStep.finish finishBody) x9).1 = some z ∧
      z.2.step = CheckpointStep.finish := by
    rw [runLink, runStage, if_pos (ord_le_finish ss0.step)]
    exact ⟨_, rfl, rfl⟩
  refine ⟨x10, ?_, hstep10⟩
  simp only [optimize_topology]
  rw [runChain, andThen_some hx1]
  rw [runChain, andThen_some hx2]
  rw [runChain, andThen_some hx3]
  rw [runChain, andThen_some hx4]
  rw [runChain, andThen_some hx5]
  rw [runChain, andThen_some hx6]
  rw [runChain, andThen_some hx7]
  rw [runChain, andThen_some hx8]
  rw [runChain, andThen_some hx9]
  rw [runChain, andThen_some hx10]
  rfl

theorem C5_witness :
    ∃ (fuel : ℕ) (r : Unit × SearchState),
      (optimize_topology cfg0 (constTI (-50) 10) fuel (initSS CheckpointStep.brlenOpt) ()).1 =
        some r ∧ r.2.step = CheckpointStep.finish :=
  C5_amended_nonimproving_terminates cfg0 (constTI (-50) 10)
    (initSS CheckpointStep.brlenOpt) ()
    ⟨fun _ _ => ⟨le_refl _, rfl⟩, fun _ _ => ⟨le_refl _, rfl⟩, fun _ _ _ => ⟨le_refl _, rfl⟩⟩
    (fun _ _ => le_refl _) (by norm_num [cfg0])

end Raxml
